import Mathlib

/-!
Verification development for the sql-code-analyzer repository.

The Python source is shallowly embedded: each relevant Python function
(validators, structural parser, dialect detector, analyzer) is translated
into an executable Lean definition over `String` / `List Char`.  Regular
expressions from the source are translated pattern by pattern into
character-level scanning functions that mirror the leftmost-match,
non-overlapping semantics of Python's `re.search` / `findall` / `finditer`
(including greedy/lazy quantifier behaviour where it is observable).
Python's `\w` and `\s` classes are modelled over ASCII, which is faithful on
the ASCII texts this analyzer targets.
-/

namespace SqlAnalyzer

/-- ASCII model of Python's `\s` class (also used by `str.strip`). -/
def isWsC (c : Char) : Bool :=
  c = ' ' || c = '\t' || c = '\n' || c = '\r' || c = '\x0b' || c = '\x0c'

/-- ASCII model of Python's `\w` class. -/
def isWordC (c : Char) : Bool :=
  ('a' ≤ c && c ≤ 'z') || ('A' ≤ c && c ≤ 'Z') || ('0' ≤ c && c ≤ '9') || c = '_'

/-- ASCII letter (`[a-zA-Z]`). -/
def isLetterC (c : Char) : Bool :=
  ('a' ≤ c && c ≤ 'z') || ('A' ≤ c && c ≤ 'Z')

/-- ASCII uppercase letter (`[A-Z]`). -/
def isUpperC (c : Char) : Bool := 'A' ≤ c && c ≤ 'Z'

/-- Case-insensitive character comparison (ASCII, as in `re.IGNORECASE`). -/
def ciEq (a b : Char) : Bool := a.toUpper = b.toUpper

/-- Case-insensitive "starts with" on character lists. -/
def ciStarts : List Char → List Char → Bool
  | [], _ => true
  | _ :: _, [] => false
  | p :: ps, c :: cs => ciEq p c && ciStarts ps cs

/-- Case-sensitive "starts with" on character lists. -/
def csStarts : List Char → List Char → Bool
  | [], _ => true
  | _ :: _, [] => false
  | p :: ps, c :: cs => (p = c) && csStarts ps cs

/-- Python's substring containment `pat in s` (case-sensitive). -/
def containsSub (pat : List Char) : List Char → Bool
  | [] => pat.isEmpty
  | c :: rest => csStarts pat (c :: rest) || containsSub pat rest

/-- Case-insensitive substring search (an unanchored `re.search` of a
literal pattern compiled with `re.IGNORECASE`). -/
def containsCI (pat : List Char) : List Char → Bool
  | [] => pat.isEmpty
  | c :: rest => ciStarts pat (c :: rest) || containsCI pat rest

/-- Auxiliary for `countSub`: Python's non-overlapping `str.count`.
`skip` counters the characters still covered by the previous match. -/
def countSubAux (pat : List Char) : Nat → List Char → Nat
  | _, [] => 0
  | k + 1, _ :: rest => countSubAux pat k rest
  | 0, c :: rest =>
      if csStarts pat (c :: rest) then countSubAux pat (pat.length - 1) rest + 1
      else countSubAux pat 0 rest

/-- Python's `str.count` for a non-empty pattern: the number of
non-overlapping occurrences, scanning left to right. -/
def countSub (pat cs : List Char) : Nat := countSubAux pat 0 cs

/-- Number of leading whitespace characters. -/
def wsCount : List Char → Nat
  | [] => 0
  | c :: rest => if isWsC c then wsCount rest + 1 else 0

/-- Drop all leading whitespace (Python `str.lstrip` / maximal `\s*`). -/
def dropWs : List Char → List Char
  | [] => []
  | c :: rest => if isWsC c then dropWs rest else c :: rest

/-- Require at least one whitespace character, then drop the maximal run
(the greedy `\s+`). -/
def dropWs1 : List Char → Option (List Char)
  | [] => none
  | c :: rest => if isWsC c then some (dropWs rest) else none

/-- Maximal run of characters satisfying `p` (a greedy `[class]*`):
returns the run and the remaining suffix. -/
def takeRun (p : Char → Bool) : List Char → List Char × List Char
  | [] => ([], [])
  | c :: rest =>
      if p c then
        let (r, s) := takeRun p rest
        (c :: r, s)
      else ([], c :: rest)

/-- Python `str.strip`: drop leading and trailing whitespace. -/
def stripL (cs : List Char) : List Char :=
  ((cs.dropWhile isWsC).reverse.dropWhile isWsC).reverse

/-- `str.strip` on `String`. -/
def stripS (s : String) : String := ⟨stripL s.data⟩

/-- Python `str.upper` (ASCII). -/
def upperL (cs : List Char) : List Char := cs.map Char.toUpper

/-- Word boundary `\b` on the left of the current position: the previous
character (`none` at the start of the text) is not a word character. -/
def boundaryB : Option Char → Bool
  | none => true
  | some c => !isWordC c

/-- Word boundary `\b` on the right: the next character is absent or not a
word character. -/
def boundaryA : List Char → Bool
  | [] => true
  | c :: _ => !isWordC c

/-- `re.search(r'\bW\b', text, re.IGNORECASE)` for a single word `w`
consisting of word characters. -/
def searchWordAux (w : List Char) : Option Char → List Char → Bool
  | _, [] => false
  | prev, c :: rest =>
      (boundaryB prev && ciStarts w (c :: rest) && boundaryA ((c :: rest).drop w.length))
      || searchWordAux w (some c) rest

/-- Search a whole word, case-insensitively, with `\b` on both sides. -/
def searchWord (w : String) (cs : List Char) : Bool := searchWordAux w.data none cs

/-- Python's `sorted(set(...))` on strings: deduplicate, then sort in
ascending lexicographic order. -/
def pySortedSet (l : List String) : List String :=
  l.dedup.insertionSort (· ≤ ·)

/-! ## Data model (`src/models/sql_query.py`, `SQLQuery.__init__`)

Numeric float fields (`complexity_score`, `risk_score`) are modelled as
rationals; float rounding is not modelled.  `query_type` starts out as
Python `None`, modelled by `Option String`.  `where_conditions` is not set
by `__init__` but is read defensively (`hasattr`) by the analyzer; it is
modelled as a list that is empty when the attribute was never set, which
the analyzer cannot distinguish from an empty attribute. -/

/-- One detected dialect feature as produced by
`OracleFeatureDetector.summarize_oracle_features`. -/
structure OracleFeature where
  name : String
  description : String
  exampleText : String
deriving DecidableEq, Repr

/-- Embedding of the `SQLQuery` model object. -/
structure SQLQuery where
  query_text : String
  source_file : String
  language : String
  query_type : Option String := none
  tables : List String := []
  columns : List String := []
  parsed : Bool := false
  complexity_score : ℚ := 0
  risk_score : ℚ := 0
  performance_issues : List String := []
  security_issues : List String := []
  is_oracle_specific : Bool := false
  oracle_features : List OracleFeature := []
  oracle_feature_count : Nat := 0
  join_types : List (String × Bool) := []
  has_joins : Bool := false
  join_count : Nat := 0
  complexity : Nat := 0
  where_conditions : List String := []
deriving Repr

/-! ## Dialect feature detector (`src/parsers/oracle_detector.py`)

Each entry of `OracleFeatureDetector.oracle_patterns` is translated into an
anchored matcher `Option Char → List Char → Option (List Char × List Char)`:
given the previous character (`none` at the start of the text, used for `\b`
and `^`) and the current suffix, it returns the matched characters and the
remaining suffix when the pattern matches at this position. -/

/-- Build the result of an anchored match that consumed `cs` down to
`rest`: the consumed prefix paired with `rest`. -/
def mkMatch (cs rest : List Char) : Option (List Char × List Char) :=
  some (cs.take (cs.length - rest.length), rest)

/-- Words separated by `\s+`, the first starting exactly here.  Returns the
remaining suffix after the last word. -/
def wordChainAt : List (List Char) → List Char → Option (List Char)
  | [], cs => some cs
  | [w], cs => if ciStarts w cs then some (cs.drop w.length) else none
  | w :: w2 :: ws, cs =>
      if ciStarts w cs then
        match dropWs1 (cs.drop w.length) with
        | some rest => wordChainAt (w2 :: ws) rest
        | none => none
      else none

/-- `\bW1\s+W2\s+...\s+Wn\b` as an anchored matcher. -/
def wordSeqAt (ws : List (List Char)) (prev : Option Char) (cs : List Char) :
    Option (List Char × List Char) :=
  if boundaryB prev then
    match wordChainAt ws cs with
    | some rest => if boundaryA rest then mkMatch cs rest else none
    | none => none
  else none

/-- `\bW\s*\(` as an anchored matcher (Oracle function-call patterns). -/
def funcCallAt (w : List Char) (prev : Option Char) (cs : List Char) :
    Option (List Char × List Char) :=
  if boundaryB prev && ciStarts w cs then
    let r := (cs.drop w.length).drop (wsCount (cs.drop w.length))
    match r with
    | '(' :: rest => mkMatch cs rest
    | _ => none
  else none

/-- `(?:\s|=|\()\+\)` — the legacy outer-join operator `(+)`. -/
def outerJoinAt (_prev : Option Char) (cs : List Char) :
    Option (List Char × List Char) :=
  match cs with
  | a :: '+' :: ')' :: r =>
      if isWsC a || a = '=' || a = '(' then some ([a, '+', ')'], r) else none
  | _ => none

/-- Lazy scan through the first occurrence of `endPat` (case-sensitive),
returning the consumed characters (ending with `endPat`) and the rest. -/
def findThrough (endPat : List Char) : List Char → Option (List Char × List Char)
  | [] => none
  | c :: rest =>
      if csStarts endPat (c :: rest) then
        some (endPat, (c :: rest).drop endPat.length)
      else
        match findThrough endPat rest with
        | some (con, r) => some (c :: con, r)
        | none => none

/-- `/\*\+.*?\*/` — Oracle optimizer hint comment. -/
def hintAt (_prev : Option Char) (cs : List Char) : Option (List Char × List Char) :=
  if csStarts "/*+".data cs then
    match findThrough "*/".data (cs.drop 3) with
    | some (con, r) => some ("/*+".data ++ con, r)
    | none => none
  else none

/-- `\b\w+\.SUFFIX\b` — sequence `NEXTVAL` / `CURRVAL` references. -/
def seqRefAt (suffix : List Char) (prev : Option Char) (cs : List Char) :
    Option (List Char × List Char) :=
  if boundaryB prev then
    let (run, rest) := takeRun isWordC cs
    match run, rest with
    | _ :: _, '.' :: rest2 =>
        if ciStarts suffix rest2 && boundaryA (rest2.drop suffix.length) then
          mkMatch cs (rest2.drop suffix.length)
        else none
    | _, _ => none
  else none

/-- `\bOVER\s*\(PARTITION\s+BY\b` — analytic function syntax. -/
def analyticAt (prev : Option Char) (cs : List Char) : Option (List Char × List Char) :=
  if boundaryB prev && ciStarts "OVER".data cs then
    let r := cs.drop 4
    match r.drop (wsCount r) with
    | '(' :: r2 =>
        match wordChainAt ["PARTITION".data, "BY".data] r2 with
        | some rest => if boundaryA rest then mkMatch cs rest else none
        | none => none
    | _ => none
  else none

/-- First alternative of `ws` that matches case-insensitively at `cs`
(regex alternation, no trailing boundary). -/
def firstAlt (ws : List (List Char)) (cs : List Char) : Option (List Char) :=
  ws.find? (fun w => ciStarts w cs)

/-- First alternative that matches at `cs` with a `\b` after it. -/
def firstAltB (ws : List (List Char)) (cs : List Char) : Option (List Char) :=
  ws.find? (fun w => ciStarts w cs && boundaryA (cs.drop w.length))

/-- `/\*\+\s*(?:FULL|INDEX|NO_INDEX|USE_HASH|ORDERED)\s*\(` — table hints. -/
def tableHintAt (_prev : Option Char) (cs : List Char) : Option (List Char × List Char) :=
  if csStarts "/*+".data cs then
    let r := cs.drop 3
    let r2 := r.drop (wsCount r)
    match firstAlt ["FULL".data, "INDEX".data, "NO_INDEX".data, "USE_HASH".data,
        "ORDERED".data] r2 with
    | some w =>
        let r3 := r2.drop w.length
        match r3.drop (wsCount r3) with
        | '(' :: rest => mkMatch cs rest
        | _ => none
    | none => none
  else none

/-- `\bFROM\s+(?:USER_|ALL_|DBA_|V\$)\w+\b` — Oracle system views. -/
def systemTablesAt (prev : Option Char) (cs : List Char) :
    Option (List Char × List Char) :=
  if boundaryB prev && ciStarts "FROM".data cs then
    match dropWs1 (cs.drop 4) with
    | some r =>
        match firstAlt ["USER_".data, "ALL_".data, "DBA_".data, "V$".data] r with
        | some w =>
            match takeRun isWordC (r.drop w.length) with
            | (_ :: _, rest) => mkMatch cs rest
            | _ => none
        | none => none
    | none => none
  else none

/-- `\bTABLE\s*\(\s*\w+\s*\)` — `TABLE()` collection operator. -/
def plsqlTableAt (prev : Option Char) (cs : List Char) :
    Option (List Char × List Char) :=
  if boundaryB prev && ciStarts "TABLE".data cs then
    let r := cs.drop 5
    match r.drop (wsCount r) with
    | '(' :: r2 =>
        let r3 := r2.drop (wsCount r2)
        match takeRun isWordC r3 with
        | (_ :: _, r4) =>
            match r4.drop (wsCount r4) with
            | ')' :: rest => mkMatch cs rest
            | _ => none
        | _ => none
    | _ => none
  else none

/-- `\bAS\s+OF\s+(?:SCN|TIMESTAMP)\b` — flashback query. -/
def flashbackAt (prev : Option Char) (cs : List Char) :
    Option (List Char × List Char) :=
  match wordSeqAt ["AS".data, "OF".data, "SCN".data] prev cs with
  | some r => some r
  | none => wordSeqAt ["AS".data, "OF".data, "TIMESTAMP".data] prev cs

/-- `^\s*(?:SET|SHOW|SPOOL|DESC|DESCRIBE|EXEC|EXECUTE|WHENEVER)\b` —
SQL*Plus commands (anchored at the start of the text). -/
def sqlplusAt (prev : Option Char) (cs : List Char) : Option (List Char × List Char) :=
  match prev with
  | some _ => none
  | none =>
      let r := cs.drop (wsCount cs)
      match firstAltB ["SET".data, "SHOW".data, "SPOOL".data, "DESC".data,
          "DESCRIBE".data, "EXEC".data, "EXECUTE".data, "WHENEVER".data] r with
      | some w => mkMatch cs (r.drop w.length)
      | none => none

/-- Non-overlapping left-to-right collection of all matches of an anchored
matcher (the semantics of `pattern.findall`).  `fuel` is the length of the
text; every step consumes at least one character. -/
def findAllAux (m : Option Char → List Char → Option (List Char × List Char)) :
    Nat → Option Char → List Char → List (List Char)
  | 0, _, _ => []
  | _ + 1, _, [] => []
  | fuel + 1, prev, c :: rest =>
      match m prev (c :: rest) with
      | some ([], _) => []
      | some (g@(_ :: _), after) => g :: findAllAux m fuel g.getLast? after
      | none => findAllAux m fuel (some c) rest

/-- `pattern.findall(text)` for a groupless pattern: the full match texts. -/
def findAllM (m : Option Char → List Char → Option (List Char × List Char))
    (cs : List Char) : List (List Char) :=
  findAllAux m cs.length none cs

/-- The ordered catalog `OracleFeatureDetector.oracle_patterns`. -/
def oracle_patterns :
    List (String × (Option Char → List Char → Option (List Char × List Char))) :=
  [("connect_by", wordSeqAt ["CONNECT".data, "BY".data]),
   ("start_with", wordSeqAt ["START".data, "WITH".data]),
   ("pivot", wordSeqAt ["PIVOT".data]),
   ("unpivot", wordSeqAt ["UNPIVOT".data]),
   ("merge", wordSeqAt ["MERGE".data, "INTO".data]),
   ("outer_join_operator", outerJoinAt),
   ("optimizer_hint", hintAt),
   ("decode", funcCallAt "DECODE".data),
   ("nvl", funcCallAt "NVL".data),
   ("nvl2", funcCallAt "NVL2".data),
   ("instr", funcCallAt "INSTR".data),
   ("regexp_like", funcCallAt "REGEXP_LIKE".data),
   ("to_date", funcCallAt "TO_DATE".data),
   ("add_months", funcCallAt "ADD_MONTHS".data),
   ("months_between", funcCallAt "MONTHS_BETWEEN".data),
   ("sequence_nextval", seqRefAt "NEXTVAL".data),
   ("sequence_currval", seqRefAt "CURRVAL".data),
   ("varchar2", wordSeqAt ["VARCHAR2".data]),
   ("number", funcCallAt "NUMBER".data),
   ("rowid", wordSeqAt ["ROWID".data]),
   ("clob", wordSeqAt ["CLOB".data]),
   ("blob", wordSeqAt ["BLOB".data]),
   ("analytic_function", analyticAt),
   ("table_hint", tableHintAt),
   ("dual_table", wordSeqAt ["FROM".data, "DUAL".data]),
   ("system_tables", systemTablesAt),
   ("plsql_table", plsqlTableAt),
   ("flashback_query", flashbackAt),
   ("alter_system", wordSeqAt ["ALTER".data, "SYSTEM".data]),
   ("sqlplus_command", sqlplusAt)]

/-- `OracleFeatureDetector.feature_descriptions`. -/
def feature_descriptions : List (String × String) :=
  [("connect_by", "Hierarchical queries using CONNECT BY"),
   ("start_with", "Hierarchical query starting condition"),
   ("pivot", "PIVOT operator for transforming rows to columns"),
   ("unpivot", "UNPIVOT operator for transforming columns to rows"),
   ("merge", "Oracle MERGE statement"),
   ("outer_join_operator", "Oracle old-style outer join syntax (+)"),
   ("optimizer_hint", "Oracle optimizer hint /*+ ... */"),
   ("decode", "DECODE function"),
   ("nvl", "NVL function for null handling"),
   ("nvl2", "NVL2 function for extended null handling"),
   ("instr", "INSTR string position function"),
   ("regexp_like", "REGEXP_LIKE for regex pattern matching"),
   ("to_date", "TO_DATE function"),
   ("add_months", "ADD_MONTHS date function"),
   ("months_between", "MONTHS_BETWEEN date function"),
   ("sequence_nextval", "Sequence NEXTVAL reference"),
   ("sequence_currval", "Sequence CURRVAL reference"),
   ("varchar2", "VARCHAR2 data type"),
   ("number", "NUMBER data type"),
   ("rowid", "ROWID data type or pseudo-column"),
   ("clob", "CLOB data type"),
   ("blob", "BLOB data type"),
   ("analytic_function", "Analytical function with PARTITION BY"),
   ("table_hint", "Oracle-specific table access hint"),
   ("dual_table", "Query using the DUAL table"),
   ("system_tables", "Oracle system tables/views (USER_*, ALL_*, DBA_*, V$)"),
   ("plsql_table", "TABLE() operator with collection"),
   ("flashback_query", "Flashback query"),
   ("alter_system", "ALTER SYSTEM administrative command"),
   ("sqlplus_command", "SQL*Plus specific command")]

/-- `OracleFeatureDetector.detect_oracle_features`: for each catalog entry
(in catalog order) whose pattern matches, the first three match texts,
each stripped. -/
def detect_oracle_features (t : String) : List (String × List String) :=
  if t = "" then []
  else
    (oracle_patterns.map fun nm =>
        (nm.1, ((findAllM nm.2 t.data).take 3).map fun m => (⟨stripL m⟩ : String)))
      |>.filter fun nx => !nx.2.isEmpty

/-- `OracleFeatureDetector.is_oracle_specific_query`. -/
def is_oracle_specific_query (t : String) : Bool :=
  (detect_oracle_features t).length > 0

/-- `OracleFeatureDetector.get_oracle_feature_details`. -/
def get_oracle_feature_details (n : String) : String :=
  ((feature_descriptions.lookup n).getD "Oracle-specific feature")

/-- `OracleFeatureDetector.summarize_oracle_features`. -/
def summarize_oracle_features (t : String) : List OracleFeature :=
  (detect_oracle_features t).map fun nx =>
    { name := nx.1, description := get_oracle_feature_details nx.1,
      exampleText := nx.2.headD "" }

/-! ## Structural parser (`src/parsers/sql_parser.py`) -/

/-- Content strictly before the first occurrence of a position predicate,
or the whole list when it never holds. -/
def takeToP (p : List Char → Bool) : List Char → List Char
  | [] => []
  | c :: rest => if p (c :: rest) then [] else c :: takeToP p rest

/-- Content before the first occurrence of `stop`, or the whole list
(Python `s.split(stop, 1)[0]`). -/
def takeBefore (stop : Char) : List Char → List Char
  | [] => []
  | c :: rest => if c = stop then [] else c :: takeBefore stop rest

/-- Split at the first occurrence of `stop`: content before it and the rest
after it, or `none` when `stop` is absent. -/
def takeUntil (stop : Char) : List Char → Option (List Char × List Char)
  | [] => none
  | c :: rest =>
      if c = stop then some ([], rest)
      else
        match takeUntil stop rest with
        | some (g, r) => some (c :: g, r)
        | none => none

/-- The DML keywords scanned for after a leading `WITH`
(`SELECT|INSERT|UPDATE|DELETE|MERGE`). -/
def dmlKeywords : List String := ["SELECT", "INSERT", "UPDATE", "DELETE", "MERGE"]

/-- A DML keyword at this position followed by at least one whitespace
character (the `(KW)\s+` tail of the CTE regex). -/
def dmlAt (cs : List Char) : Option String :=
  dmlKeywords.find? fun k =>
    ciStarts k.data cs &&
      (match cs.drop k.data.length with
       | c :: _ => isWsC c
       | [] => false)

/-!
The two CTE regexes are embedded as explicit backtracking searches that
mirror the engine's depth-first exploration order (greedy quantifiers try
longest first, lazy ones shortest first, and the most recently matched
quantifier backtracks first):

  `SQLParser.identify_query_type` / "Star" variant
      `WITH\s+.*?(?:\s*,\s*.*?)*?\s+(SELECT|INSERT|UPDATE|DELETE|MERGE)\s+`
      with `re.IGNORECASE | re.DOTALL`;
  `SQLValidator.get_query_type` / "Plus" variant (run on uppercased text)
      `WITH\s+.+?(?:\s+,\s+.+?)*?\s+(SELECT|INSERT|UPDATE|DELETE|MERGE)\s+`
      with `re.DOTALL`.

Within one comma-group iteration `\s*,\s*.*?` (resp. `\s+,\s+.+?`) the
`\s*`/`\s+` before the comma is forced (whitespace cannot contain a
comma), while the whitespace after the comma and the inner lazy dot
interact: with the whitespace greedy at its maximal run `w2`, the lazy dot
enumerates every exit at or beyond the run's end, and only afterwards does
the whitespace backtrack, each shorter run contributing exactly one new
exit inside the run (the longer dot-extensions at that run length revisit
already-explored exit positions, where the identical remaining pattern
fails again).  `iterExitsStar`/`iterExitsPlus` list the iteration's exit
suffixes in exactly this exploration order. -/

/-- All suffixes of a list, longest (earliest exit position) first — the
exits of a lazy dot star growing from length 0. -/
def suffixesL : List Char → List (List Char)
  | [] => [[]]
  | c :: r => (c :: r) :: suffixesL r

/-- `[p.drop (j - 1), p.drop (j - 2), ..., p.drop 0]` — the single new exit
contributed by each backtracking step of a greedy whitespace run of length
`j`, in exploration order. -/
def backwardDrops (p : List Char) : Nat → List (List Char)
  | 0 => []
  | j + 1 => p.drop j :: backwardDrops p j

/-- The trailing `\s+(SELECT|INSERT|UPDATE|DELETE|MERGE)\s+` of both CTE
regexes: at least one whitespace character (the keyword starts with a
letter, so only the maximal run can precede it), a captured DML keyword,
and a following whitespace character. -/
def tailDML (cs : List Char) : Option String :=
  match dropWs1 cs with
  | some r => dmlAt r
  | none => none

/-- Exit suffixes of one iteration of `(?:\s*,\s*.*?)` at `cs2`, in the
engine's exploration order: after the forced `\s*,`, first every suffix of
the text beyond the maximal whitespace run (lazy dot from length 0), then
the new positions uncovered by backtracking that run. -/
def iterExitsStar (cs2 : List Char) : List (List Char) :=
  match cs2.drop (wsCount cs2) with
  | ',' :: p =>
      let w2 := wsCount p
      suffixesL (p.drop w2) ++ backwardDrops p w2
  | _ => []

/-- Exit suffixes of one iteration of `(?:\s+,\s+.+?)` at `cs2`: as in
`iterExitsStar` but with non-empty whitespace on both sides of the comma
and a non-empty inner dot, so the lazy dot starts one character beyond the
maximal run and the backtracking runs stop before becoming empty. -/
def iterExitsPlus (cs2 : List Char) : List (List Char) :=
  if wsCount cs2 = 0 then []
  else
    match cs2.drop (wsCount cs2) with
    | ',' :: p =>
        let w2 := wsCount p
        if w2 = 0 then []
        else
          (match p.drop w2 with
           | [] => []
           | _ :: rest => suffixesL rest)
            ++ (backwardDrops (p.drop 1) w2).dropLast
    | _ => []

/-- The lazy comma group followed by the tail, for the Star variant: a
lazy repetition first tries zero further iterations (the tail), then each
iteration exit in order, recursing.  Every iteration consumes at least its
comma, so the text length bounds the fuel. -/
def matchGroupStar : Nat → List Char → Option String
  | 0, _ => none
  | fuel + 1, cs2 =>
      match tailDML cs2 with
      | some k => some k
      | none => (iterExitsStar cs2).findSome? (matchGroupStar fuel)

/-- The lazy comma group followed by the tail, for the Plus variant. -/
def matchGroupPlus : Nat → List Char → Option String
  | 0, _ => none
  | fuel + 1, cs2 =>
      match tailDML cs2 with
      | some k => some k
      | none => (iterExitsPlus cs2).findSome? (matchGroupPlus fuel)

/-- The lazy `.*?` before the comma group (Star variant): try the group
and tail at each growing dot length, shortest first. -/
def matchMidStar : List Char → Option String
  | [] => matchGroupStar 1 []
  | c :: r =>
      match matchGroupStar ((c :: r).length + 1) (c :: r) with
      | some k => some k
      | none => matchMidStar r

/-- The lazy `.+?` before the comma group (Plus variant): as
`matchMidStar` but consuming at least one character first. -/
def matchMidPlus : List Char → Option String
  | [] => none
  | _ :: r =>
      match matchGroupPlus (r.length + 1) r with
      | some k => some k
      | none => matchMidPlus r

/-- The greedy `\s+` after `WITH`: try the maximal whitespace run first,
then each shorter non-empty run. -/
def tryLeadWs (f : List Char → Option String) : Nat → List Char → Option String
  | 0, _ => none
  | j + 1, cs0 =>
      match f (cs0.drop (j + 1)) with
      | some k => some k
      | none => tryLeadWs f j cs0

/-- One start position of the Star CTE regex, `WITH` just consumed. -/
def cteRegexStar (cs0 : List Char) : Option String :=
  tryLeadWs matchMidStar (wsCount cs0) cs0

/-- One start position of the Plus CTE regex, `WITH` just consumed. -/
def cteRegexPlus (cs0 : List Char) : Option String :=
  tryLeadWs matchMidPlus (wsCount cs0) cs0

/-- `re.search` of the Star CTE regex: try successive (case-insensitive)
`WITH` occurrences left to right. -/
def cteSearchStar : List Char → Option String
  | [] => none
  | c :: rest =>
      if ciStarts "WITH".data (c :: rest) then
        match cteRegexStar ((c :: rest).drop 4) with
        | some k => some k
        | none => cteSearchStar rest
      else cteSearchStar rest

/-- `re.search` of the Plus CTE regex: try successive `WITH` occurrences
left to right. -/
def cteSearchPlus : List Char → Option String
  | [] => none
  | c :: rest =>
      if ciStarts "WITH".data (c :: rest) then
        match cteRegexPlus ((c :: rest).drop 4) with
        | some k => some k
        | none => cteSearchPlus rest
      else cteSearchPlus rest

/-- `re.match(r'^\s*WITH\s+', text, re.IGNORECASE)`. -/
def matchLeadingWith (cs : List Char) : Bool :=
  let r := dropWs cs
  ciStarts "WITH".data r && wsCount (r.drop 4) > 0

/-- The keys of `SQLParser.query_type_patterns`, in insertion order; each
maps to an anchored `^\s*KEY` pattern. -/
def query_type_keys : List String :=
  ["SELECT", "INSERT", "UPDATE", "DELETE", "CREATE", "ALTER", "DROP",
   "TRUNCATE", "MERGE", "GRANT", "REVOKE"]

/-- `UNION\s+(?:ALL\s+)?SELECT` at this position. -/
def unionSelectAt (cs : List Char) : Bool :=
  ciStarts "UNION".data cs &&
    (match dropWs1 (cs.drop 5) with
     | some r =>
         ciStarts "ALL".data r &&
             (match dropWs1 (r.drop 3) with
              | some r2 => ciStarts "SELECT".data r2
              | none => false)
           || ciStarts "SELECT".data r
     | none => false)

/-- `re.search(r'UNION\s+(?:ALL\s+)?SELECT', text, re.IGNORECASE)`. -/
def searchUnionSelect : List Char → Bool
  | [] => false
  | c :: rest => unionSelectAt (c :: rest) || searchUnionSelect rest

/-- `SQLParser.identify_query_type`. -/
def identify_query_type (t : String) : String :=
  if t = "" then "UNKNOWN"
  else
    let cs := t.data
    match (if matchLeadingWith cs then cteSearchStar cs else none) with
    | some k => k
    | none =>
        match query_type_keys.find? (fun k => ciStarts k.data (dropWs cs)) with
        | some k => k
        | none => if searchUnionSelect cs then "SELECT" else "UNKNOWN"

/-- Characters allowed in a table identifier by the extraction patterns
(`[a-zA-Z0-9_\.\[\]"]`). -/
def isTableChar (c : Char) : Bool :=
  isWordC c || c = '.' || c = '[' || c = ']' || c = '"'

/-- The optional alias tail `(?:\s+(?:AS\s+)?([a-zA-Z0-9_]+))?`: consume it
when it matches (with the regex's backtracking out of `AS\s+` when no
identifier follows), otherwise leave the input unchanged. -/
def aliasSuffix (cs : List Char) : List Char :=
  match dropWs1 cs with
  | none => cs
  | some r =>
      if ciStarts "AS".data r then
        match dropWs1 (r.drop 2) with
        | some r2 =>
            match takeRun isWordC r2 with
            | (_ :: _, rest) => rest
            | ([], _) => r.drop 2
        | none => (takeRun isWordC r).2
      else
        match takeRun isWordC r with
        | (_ :: _, rest) => rest
        | ([], _) => cs

/-- `KW1\s+...\s+KWn\s+([table chars]+)` with an optional alias tail:
returns the captured identifier and the suffix after the whole match. -/
def kwTableAt (kws : List (List Char)) (useAlias : Bool) (cs : List Char) :
    Option (List Char × List Char) :=
  match wordChainAt kws cs with
  | some rest =>
      match dropWs1 rest with
      | some r =>
          match takeRun isTableChar r with
          | (g@(_ :: _), r2) => some (g, if useAlias then aliasSuffix r2 else r2)
          | _ => none
      | none => none
  | none => none

/-- `LEAD (UNIQUE\s+)? INDEX\s+(?:[a-zA-Z0-9_]+)\s+ON\s+([table chars]+)` —
the `CREATE [UNIQUE] INDEX ... ON tbl` and `DROP INDEX ... ON tbl` shapes. -/
def indexOnAt (lead : List Char) (allowUnique : Bool) (cs : List Char) :
    Option (List Char × List Char) :=
  if ciStarts lead cs then
    match dropWs1 (cs.drop lead.length) with
    | some r0 =>
        let r :=
          if allowUnique && ciStarts "UNIQUE".data r0 then
            match dropWs1 (r0.drop 6) with
            | some r1 => r1
            | none => r0
          else r0
        if ciStarts "INDEX".data r then
          match dropWs1 (r.drop 5) with
          | some r2 =>
              match takeRun isWordC r2 with
              | (_ :: _, r3) =>
                  match dropWs1 r3 with
                  | some r4 =>
                      if ciStarts "ON".data r4 then
                        match dropWs1 (r4.drop 2) with
                        | some r5 =>
                            match takeRun isTableChar r5 with
                            | (g@(_ :: _), r6) => some (g, r6)
                            | _ => none
                        | none => none
                      else none
                  | none => none
              | _ => none
          | none => none
        else none
    | none => none
  else none

/-- One attempt of the `\s+ON\s+([table chars]+)` tail for the lazy-middle
`GRANT/REVOKE` patterns, at a whitespace position. -/
def onAttempt (cs : List Char) : Option (List Char × List Char) :=
  let r := cs.drop (wsCount cs)
  if ciStarts "ON".data r then
    match dropWs1 (r.drop 2) with
    | some r2 =>
        match takeRun isTableChar r2 with
        | (g@(_ :: _), r3) => some (g, r3)
        | _ => none
    | none => none
  else none

/-- Lazy growth of `.*?\s+ON\s+(...)` (no DOTALL: the dot cannot cross a
newline, so the scan stops at the first newline that cannot be part of a
successful whitespace run). -/
def lazyOnScan : List Char → Option (List Char × List Char)
  | [] => none
  | c :: rest =>
      match (if isWsC c then onAttempt (c :: rest) else none) with
      | some res => some res
      | none => if c = '\n' then none else lazyOnScan rest

/-- `KW\s+.*?\s+ON\s+([table chars]+)` — the `GRANT`/`REVOKE` patterns. -/
def grantOnAt (kw : List Char) (cs : List Char) : Option (List Char × List Char) :=
  if ciStarts kw cs then
    let after := cs.drop kw.length
    let w := wsCount after
    if w = 0 then none
    else
      let rest2 := after.drop w
      match (match rest2 with
             | [] => none
             | _ :: r => lazyOnScan r) with
      | some res => some res
      | none =>
          if 2 ≤ w && ciStarts "ON".data rest2 then
            match dropWs1 (rest2.drop 2) with
            | some r =>
                match takeRun isTableChar r with
                | (g@(_ :: _), r2) => some (g, r2)
                | _ => none
            | none => none
          else none
  else none

/-- `WITH\s+([a-zA-Z0-9_]+)(?:\s*\([^)]*\))?\s+AS` — the CTE-name
pattern, with the greedy optional parenthesis group tried first. -/
def cteAt (cs : List Char) : Option (List Char × List Char) :=
  if ciStarts "WITH".data cs then
    match dropWs1 (cs.drop 4) with
    | some r =>
        match takeRun isWordC r with
        | (g@(_ :: _), r2) =>
            let finish : List Char → Option (List Char) := fun rr =>
              match dropWs1 rr with
              | some r6 => if ciStarts "AS".data r6 then some (r6.drop 2) else none
              | none => none
            let withParen : Option (List Char) :=
              match r2.drop (wsCount r2) with
              | '(' :: r4 =>
                  match takeUntil ')' r4 with
                  | some (_, r5) => some r5
                  | none => none
              | _ => none
            match withParen with
            | some r5 =>
                match finish r5 with
                | some rest => some (g, rest)
                | none =>
                    match finish r2 with
                    | some rest => some (g, rest)
                    | none => none
            | none =>
                match finish r2 with
                | some rest => some (g, rest)
                | none => none
        | _ => none
    | none => none
  else none

/-- Non-overlapping left-to-right `finditer`, collecting the captured
group of each match and resuming after the full match. -/
def findIterAux (m : List Char → Option (List Char × List Char)) :
    Nat → List Char → List (List Char)
  | 0, _ => []
  | _ + 1, [] => []
  | fuel + 1, c :: rest =>
      match m (c :: rest) with
      | some (g, after) =>
          if after.length < rest.length + 1 then g :: findIterAux m fuel after
          else g :: findIterAux m fuel rest
      | none => findIterAux m fuel rest

/-- `finditer` over a text, collecting captured groups. -/
def findIter (m : List Char → Option (List Char × List Char)) (cs : List Char) :
    List (List Char) :=
  findIterAux m cs.length cs

/-- `SQLParser.table_patterns` for a statement type (without the separate
`WITH_CTE` entry). -/
def table_patterns (qt : String) : List (List Char → Option (List Char × List Char)) :=
  if qt = "SELECT" then
    [kwTableAt ["FROM".data] true, kwTableAt ["JOIN".data] true]
  else if qt = "UPDATE" then [kwTableAt ["UPDATE".data] true]
  else if qt = "INSERT" then [kwTableAt ["INSERT".data, "INTO".data] false]
  else if qt = "DELETE" then [kwTableAt ["DELETE".data, "FROM".data] true]
  else if qt = "MERGE" then
    [kwTableAt ["MERGE".data, "INTO".data] true, kwTableAt ["USING".data] true]
  else if qt = "CREATE" then
    [kwTableAt ["CREATE".data, "TABLE".data] false, indexOnAt "CREATE".data true,
     kwTableAt ["CREATE".data, "VIEW".data] false]
  else if qt = "ALTER" then [kwTableAt ["ALTER".data, "TABLE".data] false]
  else if qt = "DROP" then
    [kwTableAt ["DROP".data, "TABLE".data] false, indexOnAt "DROP".data false,
     kwTableAt ["DROP".data, "VIEW".data] false]
  else if qt = "TRUNCATE" then [kwTableAt ["TRUNCATE".data, "TABLE".data] false]
  else if qt = "GRANT" then [grantOnAt "GRANT".data]
  else if qt = "REVOKE" then [grantOnAt "REVOKE".data]
  else []

/-- The backquote character (part of the delimiter class stripped by
`_clean_identifier`). -/
def backquoteC : Char := Char.ofNat 96

/-- `SQLParser._clean_identifier`: strip, then remove bracket/quote
delimiter characters (schema qualification is kept either way). -/
def clean_identifier (s : String) : String :=
  ⟨(stripL s.data).filter fun c =>
    !(c = '[' || c = ']' || c = '"' || c = backquoteC || c = '\'')⟩

/-- `SQLParser.extract_tables`. -/
def extract_tables (t : String) (qt : String) : List String :=
  let cs := t.data
  let cte : List String :=
    if csStarts "WITH ".data (upperL cs) then
      (findIter cteAt cs).map fun g => (⟨g⟩ : String)
    else []
  let main : List String :=
    ((table_patterns qt).flatMap fun m => findIter m cs).map fun g =>
      clean_identifier ⟨g⟩
  let base := cte ++ main
  let base :=
    if base.isEmpty && qt = "UNKNOWN" && containsSub "SELECT".data (upperL cs) then
      ((table_patterns "SELECT").flatMap fun m => findIter m cs).map fun g =>
        clean_identifier ⟨g⟩
    else base
  pySortedSet base

/-- Lazy split `(.*?)` before `\s+KW`: the minimal prefix whose end is
followed by a whitespace run and then `KW` (case-insensitive). -/
def splitAtWsThen (kw : List Char) : List Char → Option (List Char)
  | [] => none
  | c :: rest =>
      if isWsC c && ciStarts kw (dropWs (c :: rest)) then some []
      else
        match splitAtWsThen kw rest with
        | some g => some (c :: g)
        | none => none

/-- `SELECT\s+(.*?)\s+FROM` anchored at this position: greedy leading
whitespace first (tier 1), then the backtracked run allowing `FROM`
directly after it (tier 2, needing at least two whitespace characters). -/
def selColAt (cs : List Char) : Option (List Char) :=
  if ciStarts "SELECT".data cs then
    let after := cs.drop 6
    let w := wsCount after
    if w = 0 then none
    else
      let rest2 := after.drop w
      match splitAtWsThen "FROM".data rest2 with
      | some g => some g
      | none => if 2 ≤ w && ciStarts "FROM".data rest2 then some [] else none
  else none

/-- Unanchored search returning the first position where `m` matches. -/
def searchOpt {α : Type} (m : List Char → Option α) : List Char → Option α
  | [] => none
  | c :: rest =>
      match m (c :: rest) with
      | some x => some x
      | none => searchOpt m rest

/-- `KW1\s+...\s+KWn\s+[^\(]*\(([^\)]*)\)` anchored here — the INSERT and
CREATE TABLE column-list patterns. -/
def parenColAt (kws : List (List Char)) (cs : List Char) : Option (List Char) :=
  match wordChainAt kws cs with
  | some rest =>
      match dropWs1 rest with
      | some r =>
          match takeUntil '(' r with
          | some (_, r2) =>
              match takeUntil ')' r2 with
              | some (grp, _) => some grp
              | none => none
          | none => none
      | none => none
  | none => none

/-- `SET\s+(.*?)(?:WHERE|$)` anchored here — the UPDATE column pattern. -/
def setColAt (cs : List Char) : Option (List Char) :=
  if ciStarts "SET".data cs then
    let after := cs.drop 3
    let w := wsCount after
    if w = 0 then none
    else some (takeToP (ciStarts "WHERE".data) (after.drop w))
  else none

/-- Fuelled worker for `subParens`; the fuel is the text length and every
step consumes at least one character. -/
def subParensAux : Nat → List Char → List Char
  | 0, cs => cs
  | _ + 1, [] => []
  | fuel + 1, '(' :: rest =>
      match takeUntil ')' rest with
      | some (_, r) => subParensAux fuel r
      | none => '(' :: subParensAux fuel rest
  | fuel + 1, c :: rest => c :: subParensAux fuel rest

/-- `re.sub(r'\([^)]*\)', '', s)`: remove parenthesised spans (up to the
first closing parenthesis), left to right. -/
def subParens (cs : List Char) : List Char := subParensAux cs.length cs

/-- The comma split of the SELECT column section that ignores commas inside
parentheses (the `col_level` loop), keeping every piece. -/
def splitTopAux : Int → List Char → List (List Char)
  | _, [] => [[]]
  | lvl, c :: rest =>
      if c = ',' && lvl = 0 then [] :: splitTopAux lvl rest
      else
        let lvl2 : Int := if c = '(' then lvl + 1 else if c = ')' then lvl - 1 else lvl
        match splitTopAux lvl2 rest with
        | p :: ps => (c :: p) :: ps
        | [] => [[c]]

/-- Split on top-level commas. -/
def splitTop (cs : List Char) : List (List Char) := splitTopAux 0 cs

/-- `SQLParser._extract_column_name`. -/
def extract_column_name (s : String) : String :=
  let s1 : String :=
    if containsSub " AS ".data (upperL s.data) then
      stripS ⟨takeToP (csStarts " AS ".data) s.data⟩
    else s
  let s2 : String :=
    if s1.data.contains '.' then (s1.splitOn ".").getLastD s1 else s1
  clean_identifier s2

/-- The SELECT branch of `extract_columns`: the star special case, removal
of parenthesised subexpressions, the parenthesis-aware comma split, and
per-piece column-name extraction. -/
def selectColsOf (sec : List Char) : List String :=
  let star : List String := if sec.contains '*' then ["*"] else []
  star ++ (splitTop (subParens sec)).map fun p => extract_column_name ⟨stripL p⟩

/-- The per-type section match and processing of
`SQLParser.extract_columns`: `none` when there is no pattern for the type
or its search fails. -/
def extract_columns_raw (t : String) (qt : String) : Option (List String) :=
  let cs := t.data
  if qt = "SELECT" then (searchOpt selColAt cs).map selectColsOf
  else if qt = "INSERT" then
    (searchOpt (parenColAt ["INSERT".data, "INTO".data]) cs).map fun sec =>
      (sec.splitOn ',').map fun p => clean_identifier ⟨stripL p⟩
  else if qt = "UPDATE" then
    (searchOpt setColAt cs).map fun sec =>
      (sec.splitOn ',').map fun a => clean_identifier ⟨stripL (takeBefore '=' a)⟩
  else if qt = "CREATE" then
    (searchOpt (parenColAt ["CREATE".data, "TABLE".data]) cs).map fun sec =>
      (sec.splitOn ',').map fun d =>
        clean_identifier ⟨(stripL d).takeWhile fun c => !isWsC c⟩
  else none

/-- `SQLParser.extract_columns`. -/
def extract_columns (t : String) (qt : String) : List String :=
  match extract_columns_raw t qt with
  | none => []
  | some cols => pySortedSet (cols.filter fun c => c ≠ "")

/-- The statement types for which `SQLParser.column_patterns` has an
entry. -/
def column_pattern_keys : List String := ["SELECT", "INSERT", "UPDATE", "CREATE"]

/-- `SQLParser.parse`: fills the structural fields of a query record in
place and marks it parsed. -/
def parse (q : SQLQuery) : SQLQuery :=
  let qt : String :=
    match q.query_type with
    | none => identify_query_type q.query_text
    | some s => if s = "" || s = "UNKNOWN" then identify_query_type q.query_text else s
  let tables := extract_tables q.query_text qt
  let columns :=
    if qt ∈ column_pattern_keys then extract_columns q.query_text qt else q.columns
  let feats := summarize_oracle_features q.query_text
  { q with
    query_type := some qt
    tables := tables
    columns := columns
    is_oracle_specific := if !feats.isEmpty then true else q.is_oracle_specific
    oracle_features := if !feats.isEmpty then feats else q.oracle_features
    oracle_feature_count := if !feats.isEmpty then feats.length else q.oracle_feature_count
    parsed := true }

/-! ## Heuristic validator (`src/validators/sql_validator.py`) -/

/-- Unanchored boolean search. -/
def searchB (p : List Char → Bool) : List Char → Bool
  | [] => false
  | c :: rest => p (c :: rest) || searchB p rest

/-- Unanchored boolean search tracking the previous character (for `\b`). -/
def searchPB (p : Option Char → List Char → Bool) : Option Char → List Char → Bool
  | _, [] => false
  | prev, c :: rest => p prev (c :: rest) || searchPB p (some c) rest

/-- Fuelled worker for `re.sub(r"'[^']*'", "''", text)`. -/
def subSQAux : Nat → List Char → List Char
  | 0, cs => cs
  | _ + 1, [] => []
  | fuel + 1, '\'' :: rest =>
      (match takeUntil '\'' rest with
       | some (_, r) => '\'' :: '\'' :: subSQAux fuel r
       | none => '\'' :: subSQAux fuel rest)
  | fuel + 1, c :: rest => c :: subSQAux fuel rest

/-- Fuelled worker for `re.sub(r'"[^"]*\s[^"]*"', '""', text)` (only
double-quoted spans containing whitespace are collapsed). -/
def subDQAux : Nat → List Char → List Char
  | 0, cs => cs
  | _ + 1, [] => []
  | fuel + 1, '"' :: rest =>
      (match takeUntil '"' rest with
       | some (g, r) =>
           if g.any isWsC then '"' :: '"' :: subDQAux fuel r
           else '"' :: subDQAux fuel rest
       | none => '"' :: subDQAux fuel rest)
  | fuel + 1, c :: rest => c :: subDQAux fuel rest

/-- `SQLValidator._remove_string_literals`. -/
def remove_string_literals (t : String) : String :=
  let s1 := subSQAux t.data.length t.data
  ⟨subDQAux s1.length s1⟩

/-- The lowercase SQL verbs of the first false-positive pattern. -/
def fpVerbsLower : List String :=
  ["create", "select", "update", "delete", "drop", "insert", "alter"]

/-- `(?:create|select|update|delete|drop|insert|alter)[A-Z][a-zA-Z0-9_]*\(`
— a camelCase method call starting with a SQL verb (case-sensitive). -/
def fp1At (cs : List Char) : Bool :=
  match fpVerbsLower.find? (fun v => csStarts v.data cs) with
  | some v =>
      (match cs.drop v.length with
       | c :: r2 =>
           isUpperC c &&
             (match (takeRun isWordC r2).2 with
              | '(' :: _ => true
              | _ => false)
       | [] => false)
  | none => false

/-- The keywords of the dotted-access false-positive pattern. -/
def fp2Words : List String :=
  ["select", "from", "where", "table", "join", "update", "delete", "drop"]

/-- `\b(?:select|from|where|table|join|update|delete|drop)\.[a-zA-Z_]` —
dotted access on a SQL-keyword-named identifier. -/
def fp2At (prev : Option Char) (cs : List Char) : Bool :=
  boundaryB prev &&
    (match fp2Words.find? (fun v => csStarts v.data cs) with
     | some v =>
         (match cs.drop v.length with
          | '.' :: c :: _ => isLetterC c || c = '_'
          | _ => false)
     | none => false)

/-- The tail `[^"]*(?:button|label|text)"` of the UI-copy pattern. -/
def fp3Tail : List Char → Bool
  | [] => false
  | c :: rest =>
      (match ["button", "label", "text"].find? (fun w => csStarts w.data (c :: rest)) with
       | some w =>
           (match (c :: rest).drop w.length with
            | '"' :: _ => true
            | _ => false)
       | none => false)
      || (c ≠ '"' && fp3Tail rest)

/-- `"(?:Select|Update|Delete|Insert)[^"]*(?:button|label|text)"` — SQL
verbs inside UI copy. -/
def fp3At (cs : List Char) : Bool :=
  match cs with
  | '"' :: r =>
      (match ["Select", "Update", "Delete", "Insert"].find? (fun v => csStarts v.data r) with
       | some v => fp3Tail (r.drop v.length)
       | none => false)
  | _ => false

/-- The accessor-verb prefixes of the fourth false-positive pattern. -/
def fp4Verbs : List String :=
  ["get", "set", "fetch", "retrieve", "load", "save", "process", "handle", "perform"]

/-- The camelCase SQL verbs embedded in accessor names. -/
def camelVerbs : List String := ["Select", "Insert", "Update", "Delete"]

/-- Case-sensitive "some listed word occurs somewhere". -/
def containsAnyCS (ws : List String) : List Char → Bool
  | [] => false
  | c :: rest => ws.any (fun w => csStarts w.data (c :: rest)) || containsAnyCS ws rest

/-- `\b(?:get|set|...)[A-Z][a-zA-Z]*(?:Select|Insert|Update|Delete)[a-zA-Z]*\b`
— accessor names containing a camelCase SQL verb. -/
def fp4At (prev : Option Char) (cs : List Char) : Bool :=
  boundaryB prev &&
    (match fp4Verbs.find? (fun v => csStarts v.data cs) with
     | some v =>
         (match cs.drop v.length with
          | c :: r2 =>
              isUpperC c &&
                (let (run, r3) := takeRun isLetterC r2
                 boundaryA r3 && containsAnyCS camelVerbs run)
          | [] => false)
     | none => false)

/-- `SQLValidator.false_positive_patterns`: some cataloged false-positive
pattern matches the raw text. -/
def anyFalsePositive (cs : List Char) : Bool :=
  searchB fp1At cs || searchPB fp2At none cs || searchB fp3At cs || searchPB fp4At none cs

/-- `SQLValidator.sql_commands` (its Python-set elements are mutually
prefix-free, so membership order is immaterial to every match below). -/
def sql_commands : List String :=
  ["SELECT", "INSERT", "UPDATE", "DELETE", "CREATE", "ALTER", "DROP",
   "TRUNCATE", "MERGE", "GRANT", "REVOKE", "WITH", "EXECUTE"]

/-- `sql_start_pattern` (`^\s*(?:CMD|...)\s+`, `re.IGNORECASE`) combined
with the first-word extraction `re.match(r'^\s*(\w+)')...upper()`: the
command keyword when the text starts with one followed by whitespace. -/
def sqlStartCmd (cs : List Char) : Option String :=
  let r := dropWs cs
  sql_commands.find? fun k => ciStarts k.data r && wsCount (r.drop k.data.length) > 0

/-- `SQLValidator.common_db_objects` (without the trailing spaces carried
by the Python literals; the space is matched explicitly). -/
def db_objects : List String :=
  ["TABLE", "VIEW", "INDEX", "FUNCTION", "PROCEDURE", "TRIGGER",
   "SEQUENCE", "DATABASE", "SCHEMA"]

/-- `re.search(rf'\b{obj}\b', text, re.IGNORECASE)` for an object type
`obj` carrying its trailing space: the final `\b` sits after that space,
so a word character must follow it. -/
def searchObjWordAux (w : List Char) : Option Char → List Char → Bool
  | _, [] => false
  | prev, c :: rest =>
      (boundaryB prev && ciStarts w (c :: rest) &&
        (match (c :: rest).drop w.length with
         | ' ' :: d :: _ => isWordC d
         | _ => false))
      || searchObjWordAux w (some c) rest

/-- Some `common_db_objects` entry matches (the `any(...)` in the CREATE
and DROP checks). -/
def hasDbObject (cs : List Char) : Bool :=
  db_objects.any fun o => searchObjWordAux o.data none cs

/-- `SELECT\s+(?:@@|[A-Za-z0-9_.]+\()` at this position — a scalar or
function-call SELECT expression. -/
def selectExprAt (cs : List Char) : Bool :=
  ciStarts "SELECT".data cs &&
    (match dropWs1 (cs.drop 6) with
     | some r =>
         (match r with
          | '@' :: '@' :: _ => true
          | _ =>
              let (run, r2) := takeRun (fun c => isWordC c || c = '.') r
              !run.isEmpty &&
                (match r2 with
                 | '(' :: _ => true
                 | _ => false))
     | none => false)

/-- `SQLValidator.sql_clauses` in source-listing order (a Python set; its
iteration order is unspecified, but the only same-position overlap is
UNION / UNION ALL, which cannot change the match count). -/
def sql_clauses : List String :=
  ["FROM", "WHERE", "GROUP BY", "HAVING", "ORDER BY", "JOIN",
   "INNER JOIN", "LEFT JOIN", "RIGHT JOIN", "FULL JOIN",
   "CROSS JOIN", "UNION", "UNION ALL", "INTERSECT", "EXCEPT"]

/-- `clause_pattern` (`\b(CLAUSE|...)\b`, `re.IGNORECASE`) as an anchored
matcher for the `findall` driver. -/
def clauseMatchAt (prev : Option Char) (cs : List Char) :
    Option (List Char × List Char) :=
  if boundaryB prev then
    match sql_clauses.find? (fun w =>
        ciStarts w.data cs && boundaryA (cs.drop w.data.length)) with
    | some w => some (cs.take w.data.length, cs.drop w.data.length)
    | none => none
  else none

/-- `SQLValidator.sql_operators` in source order. -/
def sql_operators : List String :=
  [" AS ", " ON ", " AND ", " OR ", " IN ", " NOT IN ",
   " IS NULL", " IS NOT NULL", " BETWEEN ", " LIKE ",
   " EXISTS ", " DESC", " ASC", " LIMIT ", " OFFSET "]

/-- `SQLValidator.sql_datatypes` in source order. -/
def sql_datatypes : List String :=
  [" INT ", " INTEGER ", " VARCHAR", " CHAR", " TEXT ",
   " DATE ", " DATETIME ", " TIMESTAMP ", " BOOLEAN ",
   " FLOAT ", " DOUBLE ", " DECIMAL ", " NUMERIC ",
   " BIGINT ", " SMALLINT ", " BLOB ", " CLOB "]

/-- `common_db_objects` with their literal trailing spaces, as used by
`syntax_pattern`. -/
def db_objects_sp : List String :=
  ["TABLE ", "VIEW ", "INDEX ", "FUNCTION ", "PROCEDURE ",
   "TRIGGER ", "SEQUENCE ", "DATABASE ", "SCHEMA "]

/-- `all_syntax` for `syntax_pattern` (escaped literals, `re.IGNORECASE`,
no boundaries; the alternatives are pairwise exclusive at any position). -/
def all_syntax : List String := sql_operators ++ sql_datatypes ++ db_objects_sp

/-- `syntax_pattern` as an anchored matcher. -/
def syntaxMatchAt (_prev : Option Char) (cs : List Char) :
    Option (List Char × List Char) :=
  match all_syntax.find? (fun w => ciStarts w.data cs) with
  | some w => some (cs.take w.data.length, cs.drop w.data.length)
  | none => none

/-- `SQLValidator.is_valid_sql`: the full decision with its reason
string. -/
def sql_is_valid_sql (t : String) : Bool × String :=
  if t.length < 10 then (false, "Text too short to be SQL")
  else
    let clean := (remove_string_literals t).data
    if anyFalsePositive t.data then (false, "Matched false positive pattern")
    else
      match sqlStartCmd clean with
      | some cmd =>
          if cmd = "SELECT" && !searchWord "FROM" clean && !searchB selectExprAt clean then
            (false, "SELECT without FROM clause")
          else if cmd = "UPDATE" && !searchWord "SET" clean then
            (false, "UPDATE without SET clause")
          else if cmd = "INSERT" && !searchWord "INTO" clean then
            (false, "INSERT without INTO clause")
          else if cmd = "CREATE" && !hasDbObject clean then
            (false, "CREATE without valid object type")
          else if cmd = "DROP" && !hasDbObject clean then
            (false, "DROP without valid object type")
          else (true, "Valid SQL " ++ cmd ++ " statement")
      | none =>
          let cm := findAllM clauseMatchAt clean
          if 2 ≤ cm.length then
            (true, "Contains multiple SQL clauses: " ++
              String.intercalate ", " ((cm.take 3).map fun g => (⟨g⟩ : String)))
          else if 3 ≤ (findAllM syntaxMatchAt clean).length then
            (true, "Contains multiple SQL syntax elements")
          else (false, "Insufficient SQL syntax markers")

/-- `SQLValidator.get_query_type`. -/
def sql_get_query_type (t : String) : String :=
  if t = "" then "UNKNOWN"
  else
    let qs := upperL (dropWs t.data)
    if csStarts "WITH".data qs then
      match cteSearchPlus qs with
      | some k => k
      | none => "WITH"
    else
      match sql_commands.find? (fun k => csStarts k.data qs) with
      | some k => k
      | none => "UNKNOWN"

/-! ## Parser-backed validator (`src/validators/sqlparse_validator.py`)

The `sqlparse` library is an external dependency, not part of this
repository; the deterministic code owned by the repo is the fallback path
taken when `SQLPARSE_AVAILABLE` is false (`_basic_validate` and the regex
branch of `get_query_type`), which is what is embedded here. -/

/-- `SqlParseValidator.false_method_pattern`
(`(?:create|select|...)[A-Z][a-zA-Z0-9_]*\s*\(`). -/
def fpMethodAt (cs : List Char) : Bool :=
  match fpVerbsLower.find? (fun v => csStarts v.data cs) with
  | some v =>
      (match cs.drop v.length with
       | c :: r2 =>
           isUpperC c &&
             (let r3 := (takeRun isWordC r2).2
              match r3.drop (wsCount r3) with
              | '(' :: _ => true
              | _ => false)
       | [] => false)
  | none => false

/-- `SqlParseValidator.sql_keywords`, in source (list) order —
`EXECUTE` is deliberately listed before its prefix `EXEC`. -/
def sqlparse_keywords : List String :=
  ["SELECT", "INSERT", "UPDATE", "DELETE", "CREATE", "ALTER", "DROP",
   "TRUNCATE", "MERGE", "GRANT", "REVOKE", "BEGIN", "COMMIT", "ROLLBACK",
   "WITH", "SET", "EXECUTE", "EXEC", "CALL", "EXPLAIN"]

/-- The clause list of `_basic_validate`. -/
def basic_clauses : List String :=
  ["FROM", "WHERE", "GROUP BY", "ORDER BY", "HAVING", "JOIN",
   "INNER JOIN", "LEFT JOIN"]

/-- `SqlParseValidator._basic_validate`. -/
def basic_validate (t : String) : Bool × String :=
  let up := upperL t.data
  let r := dropWs up
  match sqlparse_keywords.find? (fun k =>
      csStarts k.data r && boundaryA (r.drop k.data.length)) with
  | some kw =>
      if kw = "SELECT" && !searchWord "FROM" up && !searchB selectExprAt up then
        (false, "SELECT without FROM clause")
      else if kw = "INSERT" && !searchWord "INTO" up then
        (false, "INSERT without INTO clause")
      else if kw = "UPDATE" && !searchWord "SET" up then
        (false, "UPDATE without SET clause")
      else if kw = "CREATE" &&
          !(["TABLE", "VIEW", "INDEX", "PROCEDURE", "FUNCTION", "TRIGGER"].any
              fun o => searchWord o up) then
        (false, "CREATE without valid object type")
      else (true, "Starts with SQL keyword " ++ kw)
  | none =>
      let clause_count := (basic_clauses.filter fun c => searchWord c up).length
      if 2 ≤ clause_count then (true, "Contains multiple SQL clauses")
      else (false, "Insufficient SQL syntax markers")

/-- `SqlParseValidator.is_valid_sql` (fallback path). -/
def sqlparse_is_valid_sql (t : String) : Bool × String :=
  if searchB fpMethodAt t.data then (false, "Matches a method name pattern")
  else if t.length < 10 then (false, "Text too short to be SQL")
  else basic_validate t

/-- `SqlParseValidator.get_query_type` (fallback path).  The dedicated
`WITH` branch after the loop is unreachable because `WITH` is itself in
`sql_keywords` and `startswith` imposes no word boundary. -/
def sqlparse_get_query_type (t : String) : String :=
  let up := upperL (dropWs t.data)
  match sqlparse_keywords.find? (fun k => csStarts k.data up) with
  | some k => k
  | none => "UNKNOWN"

/-! ## Analyzer (`src/analyzers/sql_analyzer.py`) -/

/-- `SQLAnalyzer.determine_query_complexity`: the integer complexity
policy.  The `where_conditions` guard (`hasattr` and non-empty) is the
non-emptiness test of the modelled list. -/
def determine_query_complexity (q : SQLQuery) : Nat :=
  let base := if q.query_type = some "SELECT" || q.query_type = some "WITH" then 1 else 0
  let tbl := if 1 < q.tables.length then min 3 (q.tables.length - 1) else 0
  let cond :=
    if !q.where_conditions.isEmpty then min 2 (q.where_conditions.length / 2) else 0
  let ora := if q.is_oracle_specific then min 3 q.oracle_feature_count else 0
  let qt := upperL q.query_text.data
  let joins :=
    if containsSub " JOIN ".data qt then
      min 3 (countSub " JOIN ".data qt)
      + (if containsSub " OUTER JOIN ".data qt || containsSub " LEFT JOIN ".data qt
            || containsSub " RIGHT JOIN ".data qt then 1 else 0)
      + (if containsSub " FULL JOIN ".data qt
            || containsSub " FULL OUTER JOIN ".data qt then 2 else 0)
      + (if containsSub " CROSS JOIN ".data qt then 2 else 0)
    else 0
  let grp := if containsSub " GROUP BY ".data qt then 1 else 0
  let hav := if containsSub " HAVING ".data qt then 1 else 0
  let uni :=
    if containsSub " UNION ".data qt || containsSub " INTERSECT ".data qt
        || containsSub " EXCEPT ".data qt then 2 else 0
  let cas := if containsSub " CASE ".data qt then 1 else 0
  let sub :=
    if containsSub "SUBQUERY".data qt || containsSub "SUB-QUERY".data qt
        || 1 < countSub "SELECT ".data qt then 2 else 0
  base + tbl + cond + ora + joins + grp + hav + uni + cas + sub

/-- The statistics map built by `SQLAnalyzer.get_query_statistics`. -/
structure QueryStats where
  total_queries : Nat
  query_types : List (String × Nat)
  tables_accessed : List (String × Nat)
  avg_complexity : ℚ
deriving Repr, DecidableEq

/-- Python `d[k] = d.get(k, 0) + 1` on an insertion-ordered dict. -/
def bump (m : List (String × Nat)) (k : String) : List (String × Nat) :=
  if m.any (fun p => p.1 = k) then
    m.map fun p => if p.1 = k then (p.1, p.2 + 1) else p
  else m ++ [(k, 1)]

/-- `SQLAnalyzer.get_query_statistics`. -/
def get_query_statistics (qs : List SQLQuery) : QueryStats :=
  let tm :=
    qs.foldl
      (fun (acc : List (String × Nat) × List (String × Nat)) q =>
        let qt :=
          match q.query_type with
          | none => "UNKNOWN"
          | some s => if s = "" then "UNKNOWN" else s
        (bump acc.1 qt, q.tables.foldl bump acc.2))
      ([], [])
  let avg : ℚ :=
    if qs.isEmpty then 0
    else
      let cs := qs.map (·.complexity_score)
      if cs.isEmpty then 0 else cs.sum / cs.length
  { total_queries := qs.length, query_types := tm.1, tables_accessed := tm.2,
    avg_complexity := avg }

/-! ## Specification-side definitions

These definitions are written from the specification / claim wording (not
from the source) and are compared with the source embeddings above. -/

/-- The command-specific minimum-structure check as the spec words it:
SELECT requires FROM unless it is a scalar/function expression, UPDATE
requires SET, INSERT requires INTO, CREATE and DROP require a recognized
object-type keyword; other commands have no check. -/
def minStructCheck (cmd : String) (clean : List Char) : Bool :=
  if cmd = "SELECT" then searchWord "FROM" clean || searchB selectExprAt clean
  else if cmd = "UPDATE" then searchWord "SET" clean
  else if cmd = "INSERT" then searchWord "INTO" clean
  else if cmd = "CREATE" then hasDbObject clean
  else if cmd = "DROP" then hasDbObject clean
  else true

/-- The rejection reason naming the failed command-specific check. -/
def failReason (cmd : String) : String :=
  if cmd = "SELECT" then "SELECT without FROM clause"
  else if cmd = "UPDATE" then "UPDATE without SET clause"
  else if cmd = "INSERT" then "INSERT without INTO clause"
  else if cmd = "CREATE" then "CREATE without valid object type"
  else "DROP without valid object type"

/-- The complexity policy as the claim words it: an unconditional sum of
the fixed policy constants. -/
def claimComplexity (q : SQLQuery) : Nat :=
  let qt := upperL q.query_text.data
  (if q.query_type = some "SELECT" || q.query_type = some "WITH" then 1 else 0)
  + (if 1 < q.tables.length then min 3 (q.tables.length - 1) else 0)
  + min 2 (q.where_conditions.length / 2)
  + (if q.is_oracle_specific then min 3 q.oracle_feature_count else 0)
  + (if containsSub " JOIN ".data qt then min 3 (countSub " JOIN ".data qt) else 0)
  + (if containsSub " OUTER JOIN ".data qt || containsSub " LEFT JOIN ".data qt
        || containsSub " RIGHT JOIN ".data qt then 1 else 0)
  + (if containsSub " FULL JOIN ".data qt || containsSub " FULL OUTER JOIN ".data qt
      then 2 else 0)
  + (if containsSub " CROSS JOIN ".data qt then 2 else 0)
  + (if containsSub " GROUP BY ".data qt then 1 else 0)
  + (if containsSub " HAVING ".data qt then 1 else 0)
  + (if containsSub " UNION ".data qt || containsSub " INTERSECT ".data qt
        || containsSub " EXCEPT ".data qt then 2 else 0)
  + (if containsSub " CASE ".data qt then 1 else 0)
  + (if containsSub "SUBQUERY".data qt || containsSub "SUB-QUERY".data qt
        || 1 < countSub "SELECT ".data qt then 2 else 0)

/-- Modelled from the spec: "if the text begins with `WITH`, scan forward
past balanced parenthesis groups for the first DML keyword
(SELECT/INSERT/UPDATE/DELETE/MERGE)" — a depth-tracking scan that only
looks for keywords outside parenthesis groups. -/
def skipParenScan : Int → List Char → Option String
  | _, [] => none
  | d, c :: rest =>
      if c = '(' then skipParenScan (d + 1) rest
      else if c = ')' then skipParenScan (d - 1) rest
      else if d = 0 then
        match dmlKeywords.find? (fun k => ciStarts k.data (c :: rest)) with
        | some k => some k
        | none => skipParenScan d rest
      else skipParenScan d rest

/-- Modelled from the spec: the statement type a balanced-parenthesis scan
of a leading-`WITH` text would produce. -/
def firstDMLSkippingParens (t : String) : Option String :=
  if matchLeadingWith t.data then skipParenScan 0 ((dropWs t.data).drop 4) else none

/-- The closed statement-type set named by the spec. -/
def closedStatementTypes : List String :=
  ["SELECT", "INSERT", "UPDATE", "DELETE", "CREATE", "ALTER", "DROP",
   "TRUNCATE", "MERGE", "GRANT", "REVOKE", "UNKNOWN"]

/-- The value set `SQLValidator.get_query_type` actually ranges over. -/
def validator_closed_set : List String := sql_commands ++ ["UNKNOWN"]

/-- The value set `SqlParseValidator.get_query_type` actually ranges
over. -/
def sqlparse_closed_set : List String := sqlparse_keywords ++ ["UNKNOWN"]

/-- A record that never went through parsing (`parsed = false`), used to
exercise the statistics aggregator. -/
def unparsedRecord : SQLQuery :=
  { query_text := "SELECT a FROM t", source_file := "f.java", language := "java" }

/-! ## General lemmas about the string primitives -/

theorem csStarts_iff (p s : List Char) : csStarts p s = true ↔ p <+: s := by
  induction p generalizing s with
  | nil => simp [csStarts]
  | cons a ps ih =>
    cases s with
    | nil => simp [csStarts]
    | cons c cs => simp [csStarts, List.cons_prefix_cons, ih, and_comm]

theorem containsSub_iff (p s : List Char) : containsSub p s = true ↔ p <:+: s := by
  induction s with
  | nil => simp [containsSub, List.isEmpty_iff]
  | cons c cs ih =>
    simp [containsSub, csStarts_iff, ih, List.infix_cons_iff]

theorem containsSub_append (p s t : List Char) (h : containsSub p s = true) :
    containsSub p (s ++ t) = true := by
  rw [containsSub_iff] at h ⊢
  exact h.trans (List.prefix_append s t).isInfix

theorem contains_of_subpattern {p₁ p₂ s : List Char} (h : p₁ <:+: p₂)
    (h2 : containsSub p₂ s = true) : containsSub p₁ s = true := by
  rw [containsSub_iff] at h2 ⊢
  exact h.trans h2

theorem csStarts_append {p s : List Char} (t : List Char)
    (h : csStarts p s = true) : csStarts p (s ++ t) = true := by
  rw [csStarts_iff] at h ⊢
  exact h.trans (List.prefix_append s t)

theorem countSubAux_nil (pat : List Char) (skip : Nat) : countSubAux pat skip [] = 0 := by
  cases skip <;> rfl

theorem countSubAux_succ_cons (pat : List Char) (k : Nat) (c : Char) (cs : List Char) :
    countSubAux pat (k + 1) (c :: cs) = countSubAux pat k cs := rfl

theorem countSubAux_zero_cons (pat : List Char) (c : Char) (cs : List Char) :
    countSubAux pat 0 (c :: cs) =
      if csStarts pat (c :: cs) = true then countSubAux pat (pat.length - 1) cs + 1
      else countSubAux pat 0 cs := rfl

theorem countSubAux_short (pat : List Char) :
    ∀ (s : List Char) (skip : Nat), s.length < pat.length →
      countSubAux pat skip s = 0 := by
  intro s
  induction s with
  | nil => intro skip _; exact countSubAux_nil pat skip
  | cons c cs ih =>
    intro skip h
    cases skip with
    | succ k => exact ih k (Nat.lt_of_succ_lt h)
    | zero =>
      have hp : ¬ csStarts pat (c :: cs) = true := by
        intro hcs
        have hle := ((csStarts_iff _ _).mp hcs).length_le
        simp only [List.length_cons] at hle h
        omega
      rw [countSubAux_zero_cons, if_neg hp]
      exact ih 0 (Nat.lt_of_succ_lt h)

theorem countSubAux_append_le (pat : List Char) :
    ∀ (s : List Char) (skip : Nat) (t : List Char),
      countSubAux pat skip s ≤ countSubAux pat skip (s ++ t) := by
  intro s
  induction s with
  | nil => intro skip t; rw [countSubAux_nil]; exact Nat.zero_le _
  | cons c cs ih =>
    intro skip t
    rw [List.cons_append]
    cases skip with
    | succ k =>
      rw [countSubAux_succ_cons, countSubAux_succ_cons]
      exact ih k t
    | zero =>
      by_cases hp : csStarts pat (c :: cs) = true
      · have hq : csStarts pat (c :: (cs ++ t)) = true := by
          have h2 := csStarts_append t hp
          rwa [List.cons_append] at h2
        rw [countSubAux_zero_cons, countSubAux_zero_cons, if_pos hp, if_pos hq]
        exact Nat.add_le_add_right (ih (pat.length - 1) t) 1
      · by_cases hq : csStarts pat (c :: (cs ++ t)) = true
        · have hlen : (c :: cs).length < pat.length := by
            by_contra hle
            push_neg at hle
            apply hp
            rw [csStarts_iff]
            have h2 := (csStarts_iff _ _).mp hq
            rw [List.prefix_iff_eq_take] at h2 ⊢
            rw [← List.cons_append, List.take_append_of_le_length hle] at h2
            exact h2
          rw [countSubAux_short pat _ 0 hlen]
          exact Nat.zero_le _
        · rw [countSubAux_zero_cons, countSubAux_zero_cons, if_neg hp, if_neg hq]
          exact ih 0 t

theorem countSub_append_le (pat s t : List Char) :
    countSub pat s ≤ countSub pat (s ++ t) :=
  countSubAux_append_le pat s 0 t

theorem pySortedSet_sorted (l : List String) : (pySortedSet l).Sorted (· < ·) := by
  have h1 : (pySortedSet l).Sorted (· ≤ ·) := List.sorted_insertionSort (· ≤ ·) l.dedup
  have h2 : (pySortedSet l).Nodup :=
    ((List.perm_insertionSort (· ≤ ·) l.dedup).nodup_iff).mpr (List.nodup_dedup l)
  exact h1.lt_of_le h2

theorem pySortedSet_nodup (l : List String) : (pySortedSet l).Nodup :=
  (pySortedSet_sorted l).nodup

/-! ## Claim theorems -/

/-- C7: `SQLParser.extract_tables` and `SQLParser.extract_columns` always
return duplicate-free lists sorted in ascending order, and
`extract_tables "SELECT * FROM a, a" "SELECT"` is exactly `["a"]` (the
occurrence list is deduplicated into a set before sorting, so extraction
is order-independent over occurrences). -/
theorem extract_tables_columns_sorted_nodup (t qt : String) :
    (extract_tables t qt).Sorted (· < ·) ∧ (extract_tables t qt).Nodup
    ∧ (extract_columns t qt).Sorted (· < ·) ∧ (extract_columns t qt).Nodup
    ∧ extract_tables "SELECT * FROM a, a" "SELECT" = ["a"] := by
  refine ⟨?_, ?_, ?_, ?_, by decide⟩
  · exact pySortedSet_sorted _
  · exact pySortedSet_nodup _
  · unfold extract_columns
    cases extract_columns_raw t qt with
    | none => simp
    | some cols => exact pySortedSet_sorted _
  · unfold extract_columns
    cases extract_columns_raw t qt with
    | none => simp
    | some cols => exact pySortedSet_nodup _

/-- C8: the dialect detector flags the legacy outer-join marker on
`dept_id(+) = 10` and nothing on a plain query; a statement is
Oracle-specific exactly when its feature list is non-empty; and at most
the first 3 example occurrences are kept per feature. -/
theorem oracle_detection_behaviour :
    "outer_join_operator"
        ∈ (detect_oracle_features "SELECT * FROM employees WHERE dept_id(+) = 10").map Prod.fst
    ∧ detect_oracle_features "SELECT * FROM employees WHERE dept_id(+) = 10" ≠ []
    ∧ detect_oracle_features "SELECT * FROM employees WHERE id = 1" = []
    ∧ (∀ t : String, is_oracle_specific_query t = true ↔ detect_oracle_features t ≠ [])
    ∧ (∀ (t : String) (n : String) (exs : List String),
        (n, exs) ∈ detect_oracle_features t → exs.length ≤ 3) := by
  refine ⟨by decide, by decide, by decide, ?_, ?_⟩
  · intro t
    simp only [is_oracle_specific_query, decide_eq_true_eq]
    exact ⟨fun h => List.ne_nil_of_length_pos h,
           fun h => List.length_pos.mpr h⟩
  · intro t n exs hmem
    unfold detect_oracle_features at hmem
    by_cases ht : t = ""
    · simp [ht] at hmem
    · simp only [ht, if_false] at hmem
      have hmem2 := List.mem_of_mem_filter hmem
      obtain ⟨nm, _, heq⟩ := List.mem_map.mp hmem2
      have : exs = ((findAllM nm.2 t.data).take 3).map fun m => (⟨stripL m⟩ : String) := by
        have := congrArg Prod.snd heq
        simpa using this.symm
      rw [this]
      simp [List.length_take]

/-- C8 witness: the legacy outer-join text is dialect-specific, and its
retained example list is within the 3-occurrence bound. -/
theorem oracle_detection_behaviour_witness :
    is_oracle_specific_query "SELECT * FROM employees WHERE dept_id(+) = 10" = true
    ∧ (["(+)"] : List String).length ≤ 3 :=
  ⟨(oracle_detection_behaviour.2.2.2.1
      "SELECT * FROM employees WHERE dept_id(+) = 10").mpr (by decide),
   oracle_detection_behaviour.2.2.2.2
      "SELECT * FROM employees WHERE dept_id(+) = 10" "outer_join_operator"
      ["(+)"] (by decide)⟩

/-- C6 counterexample: a record with `parsed = false` still contributes to
`SQLAnalyzer.get_query_statistics` — it is counted in `total_queries` and
in the per-type counts, so the claim that unvalidated records contribute
to none of the aggregates is false. -/
theorem statistics_count_unparsed :
    unparsedRecord.parsed = false
    ∧ (get_query_statistics [unparsedRecord]).total_queries = 1
    ∧ (get_query_statistics [unparsedRecord]).query_types = [("UNKNOWN", 1)]
    ∧ (get_query_statistics ([] : List SQLQuery)).total_queries = 0 := by
  refine ⟨rfl, rfl, by decide, rfl⟩

/-- C6 amended: `get_query_statistics` aggregates every record in the
list, with no filtering on the `parsed` (validated) flag: the total count
grows by one for every record prepended, and the statistics are entirely
insensitive to the value of `parsed`. -/
theorem statistics_ignore_parsed_flag (q : SQLQuery) (qs : List SQLQuery) (b : Bool) :
    (get_query_statistics qs).total_queries = qs.length
    ∧ get_query_statistics ({ q with parsed := b } :: qs) = get_query_statistics (q :: qs) := by
  exact ⟨rfl, rfl⟩

/-- C10: `SQLParser.parse` changes only the structural fields
(`query_type`, `tables`, `columns`, `is_oracle_specific`,
`oracle_features`, `oracle_feature_count`, `parsed`); the text, origin and
all analyzer-owned fields are untouched, and `parsed` is true afterwards. -/
theorem parse_frame (q : SQLQuery) :
    (parse q).query_text = q.query_text
    ∧ (parse q).source_file = q.source_file
    ∧ (parse q).language = q.language
    ∧ (parse q).complexity_score = q.complexity_score
    ∧ (parse q).risk_score = q.risk_score
    ∧ (parse q).performance_issues = q.performance_issues
    ∧ (parse q).security_issues = q.security_issues
    ∧ (parse q).join_types = q.join_types
    ∧ (parse q).has_joins = q.has_joins
    ∧ (parse q).join_count = q.join_count
    ∧ (parse q).complexity = q.complexity
    ∧ (parse q).where_conditions = q.where_conditions
    ∧ (parse q).parsed = true := by
  refine ⟨rfl, rfl, rfl, rfl, rfl, rfl, rfl, rfl, rfl, rfl, rfl, rfl, rfl⟩

theorem contains_false_of_super {p₁ p₂ s : List Char} (h : p₁ <:+: p₂)
    (hf : containsSub p₁ s = false) : containsSub p₂ s = false := by
  cases hx : containsSub p₂ s with
  | false => rfl
  | true => rw [contains_of_subpattern h hx] at hf; exact hf

/-- C3: `SQLAnalyzer.determine_query_complexity` computes exactly the
unconditional sum of the fixed policy constants listed by the spec — the
code's nesting of the outer/full/cross additions under the join-presence
test is immaterial because those markers all contain `" JOIN "`. -/
theorem complexity_policy_sum (q : SQLQuery) :
    determine_query_complexity q = claimComplexity q := by
  have hcond :
      (if !q.where_conditions.isEmpty then min 2 (q.where_conditions.length / 2) else 0)
        = min 2 (q.where_conditions.length / 2) := by
    cases q.where_conditions <;> simp
  by_cases hj : containsSub " JOIN ".data (upperL q.query_text.data) = true
  · simp only [determine_query_complexity, claimComplexity, hcond, hj, if_true]
    ring
  · rw [Bool.not_eq_true] at hj
    have h1 := contains_false_of_super
      (by decide : " JOIN ".data <:+: " OUTER JOIN ".data) hj
    have h2 := contains_false_of_super
      (by decide : " JOIN ".data <:+: " LEFT JOIN ".data) hj
    have h3 := contains_false_of_super
      (by decide : " JOIN ".data <:+: " RIGHT JOIN ".data) hj
    have h4 := contains_false_of_super
      (by decide : " JOIN ".data <:+: " FULL JOIN ".data) hj
    have h5 := contains_false_of_super
      (by decide : " JOIN ".data <:+: " FULL OUTER JOIN ".data) hj
    have h6 := contains_false_of_super
      (by decide : " JOIN ".data <:+: " CROSS JOIN ".data) hj
    simp only [determine_query_complexity, claimComplexity, hcond, hj, h1, h2, h3, h4, h5,
      h6, Bool.or_self, Bool.or_false, Bool.false_or, if_false]
    simp

theorem ite_le_ite_of_imp {a b : Bool} (k : Nat) (h : a = true → b = true) :
    (if a then k else 0) ≤ (if b then k else 0) := by
  cases a with
  | false => simp
  | true => rw [h rfl]

theorem tbl_term_mono {a b : Nat} (h : a ≤ b) :
    (if 1 < a then min 3 (a - 1) else 0) ≤ (if 1 < b then min 3 (b - 1) else 0) := by
  by_cases ha : 1 < a
  · have hb : 1 < b := lt_of_lt_of_le ha h
    simp only [ha, hb, if_true]
    exact min_le_min (le_refl 3) (by omega)
  · simp only [ha, if_false]
    exact Nat.zero_le _

/-- C9: complexity scoring is monotone under extending the query text (by
a join, a GROUP BY, a dialect feature, or any other suffix) while table
and dialect-feature counts do not decrease and the other scored fields are
unchanged. -/
theorem complexity_monotone (A B : SQLQuery) (ext : String)
    (htext : B.query_text = A.query_text ++ ext)
    (htype : B.query_type = A.query_type)
    (hcond : B.where_conditions = A.where_conditions)
    (htab : A.tables.length ≤ B.tables.length)
    (hora : A.oracle_feature_count ≤ B.oracle_feature_count)
    (hflag : A.is_oracle_specific = true → B.is_oracle_specific = true) :
    determine_query_complexity A ≤ determine_query_complexity B := by
  have hu : upperL B.query_text.data = upperL A.query_text.data ++ upperL ext.data := by
    rw [htext, String.data_append]
    simp [upperL]
  have hc : ∀ p : List Char, containsSub p (upperL A.query_text.data) = true →
      containsSub p (upperL B.query_text.data) = true := by
    intro p h
    rw [hu]
    exact containsSub_append p _ _ h
  have hcnt : ∀ p : List Char,
      countSub p (upperL A.query_text.data) ≤ countSub p (upperL B.query_text.data) := by
    intro p
    rw [hu]
    exact countSub_append_le p _ _
  simp only [determine_query_complexity, htype, hcond]
  refine Nat.add_le_add (Nat.add_le_add (Nat.add_le_add (Nat.add_le_add (Nat.add_le_add
    (Nat.add_le_add (Nat.add_le_add (Nat.add_le_add (Nat.add_le_add ?base ?tbl) ?cond)
    ?ora) ?joins) ?grp) ?hav) ?uni) ?cas) ?sub
  case base => exact le_refl _
  case tbl => exact tbl_term_mono htab
  case cond => exact le_refl _
  case ora =>
    cases hA : A.is_oracle_specific with
    | false => simp
    | true =>
      rw [hflag hA]
      simp only [if_true]
      exact min_le_min (le_refl 3) hora
  case joins =>
    by_cases hA : containsSub " JOIN ".data (upperL A.query_text.data) = true
    · rw [if_pos hA, if_pos (hc _ hA)]
      refine Nat.add_le_add (Nat.add_le_add (Nat.add_le_add ?cnt ?outer) ?full) ?cross
      case cnt => exact min_le_min (le_refl 3) (hcnt _)
      case outer =>
        refine ite_le_ite_of_imp 1 fun h => ?_
        simp only [Bool.or_eq_true] at h ⊢
        rcases h with (h | h) | h
        · exact Or.inl (Or.inl (hc _ h))
        · exact Or.inl (Or.inr (hc _ h))
        · exact Or.inr (hc _ h)
      case full =>
        refine ite_le_ite_of_imp 2 fun h => ?_
        simp only [Bool.or_eq_true] at h ⊢
        rcases h with h | h
        · exact Or.inl (hc _ h)
        · exact Or.inr (hc _ h)
      case cross => exact ite_le_ite_of_imp 2 fun h => hc _ h
    · rw [if_neg hA]
      exact Nat.zero_le _
  case grp => exact ite_le_ite_of_imp 1 fun h => hc _ h
  case hav => exact ite_le_ite_of_imp 1 fun h => hc _ h
  case uni =>
    refine ite_le_ite_of_imp 2 fun h => ?_
    simp only [Bool.or_eq_true] at h ⊢
    rcases h with (h | h) | h
    · exact Or.inl (Or.inl (hc _ h))
    · exact Or.inl (Or.inr (hc _ h))
    · exact Or.inr (hc _ h)
  case cas => exact ite_le_ite_of_imp 1 fun h => hc _ h
  case sub =>
    refine ite_le_ite_of_imp 2 fun h => ?_
    simp only [Bool.or_eq_true, decide_eq_true_eq] at h ⊢
    rcases h with (h | h) | h
    · exact Or.inl (Or.inl (hc _ h))
    · exact Or.inl (Or.inr (hc _ h))
    · exact Or.inr (lt_of_lt_of_le h (hcnt _))

/-- C9 witness: a concrete record pair where the second text extends the
first with a join and a GROUP BY and gains a table. -/
theorem complexity_monotone_witness :
    ({ query_text := "SELECT * FROM a JOIN b ON a.x = b.x GROUP BY y",
       source_file := "s.java", language := "java",
       query_type := some "SELECT", tables := ["a", "b"] } : SQLQuery).query_text
      = ({ query_text := "SELECT * FROM a", source_file := "s.java", language := "java",
           query_type := some "SELECT", tables := ["a"] } : SQLQuery).query_text
        ++ " JOIN b ON a.x = b.x GROUP BY y"
    ∧ determine_query_complexity
        { query_text := "SELECT * FROM a", source_file := "s.java", language := "java",
          query_type := some "SELECT", tables := ["a"] }
      ≤ determine_query_complexity
        { query_text := "SELECT * FROM a JOIN b ON a.x = b.x GROUP BY y",
          source_file := "s.java", language := "java",
          query_type := some "SELECT", tables := ["a", "b"] } := by
  refine ⟨by decide, ?_⟩
  exact complexity_monotone _ _ " JOIN b ON a.x = b.x GROUP BY y"
    (by decide) rfl rfl (by decide) (by decide) (fun h => by cases h)

/-- C1 counterexample: `"select.value from a where b"` matches the
cataloged dotted-access false-positive shape, and the heuristic validator
rejects it, but `SqlParseValidator.is_valid_sql` (whose only false-positive
filter is the camelCase method pattern) accepts it — so the two strategies
do not both reject every cataloged false-positive shape. -/
theorem validators_disagree_on_dotted_shape :
    searchPB fp2At none "select.value from a where b".data = true
    ∧ sqlparse_is_valid_sql "select.value from a where b"
        = (true, "Starts with SQL keyword SELECT")
    ∧ (sql_is_valid_sql "select.value from a where b").1 = false := by
  exact ⟨by decide, by decide, by decide⟩

/-- C1 amended: every text matching any cataloged false-positive pattern
is rejected by `SQLValidator.is_valid_sql`, and every text matching the
camelCase method-call shape (the only shape `SqlParseValidator` filters)
is rejected by `SqlParseValidator.is_valid_sql`. -/
theorem false_positive_rejection (t : String) :
    (anyFalsePositive t.data = true → (sql_is_valid_sql t).1 = false)
    ∧ (searchB fpMethodAt t.data = true → (sqlparse_is_valid_sql t).1 = false) := by
  constructor
  · intro h
    by_cases hl : t.length < 10
    · simp [sql_is_valid_sql, hl]
    · simp [sql_is_valid_sql, hl, h]
  · intro h
    simp [sqlparse_is_valid_sql, h]

/-- C1 witness: `createWidget(x, y)` matches both method-call filters and
is rejected by both validators. -/
theorem false_positive_rejection_witness :
    anyFalsePositive "createWidget(x, y)".data = true
    ∧ (sql_is_valid_sql "createWidget(x, y)").1 = false
    ∧ searchB fpMethodAt "createWidget(x, y)".data = true
    ∧ (sqlparse_is_valid_sql "createWidget(x, y)").1 = false :=
  ⟨by decide, (false_positive_rejection "createWidget(x, y)").1 (by decide),
   by decide, (false_positive_rejection "createWidget(x, y)").2 (by decide)⟩

/-- C2: for a text of length at least 10 that matches no false-positive
pattern and whose literal-stripped form starts with a recognized command
keyword, the heuristic validator accepts exactly when the
command-specific minimum-structure check passes, and on rejection the
reason names the failed check. -/
theorem heuristic_command_checks (t : String) (cmd : String)
    (hlen : 10 ≤ t.length)
    (hfp : anyFalsePositive t.data = false)
    (hcmd : sqlStartCmd (remove_string_literals t).data = some cmd) :
    ((sql_is_valid_sql t).1 = true
        ↔ minStructCheck cmd (remove_string_literals t).data = true)
    ∧ (minStructCheck cmd (remove_string_literals t).data = false →
        sql_is_valid_sql t = (false, failReason cmd)) := by
  have hl : ¬ t.length < 10 := by omega
  simp only [sql_is_valid_sql, hl, if_false, hfp, Bool.false_eq_true, hcmd,
    minStructCheck, failReason]
  by_cases h1 : cmd = "SELECT"
  · subst h1
    cases hF : searchWord "FROM" (remove_string_literals t).data <;>
      cases hE : searchB selectExprAt (remove_string_literals t).data <;>
        simp [hF, hE]
  · by_cases h2 : cmd = "UPDATE"
    · subst h2
      cases hS : searchWord "SET" (remove_string_literals t).data <;> simp [hS, h1]
    · by_cases h3 : cmd = "INSERT"
      · subst h3
        cases hI : searchWord "INTO" (remove_string_literals t).data <;>
          simp [hI, h1, h2]
      · by_cases h4 : cmd = "CREATE"
        · subst h4
          cases hO : hasDbObject (remove_string_literals t).data <;>
            simp [hO, h1, h2, h3]
        · by_cases h5 : cmd = "DROP"
          · subst h5
            cases hO : hasDbObject (remove_string_literals t).data <;>
              simp [hO, h1, h2, h3, h4]
          · simp [h1, h2, h3, h4, h5]

/-- C2 witness: well-formed SELECT / INSERT / UPDATE / DELETE statements
are accepted by the heuristic validator. -/
theorem heuristic_command_checks_witness :
    (sql_is_valid_sql "SELECT id FROM employees").1 = true
    ∧ (sql_is_valid_sql "INSERT INTO t VALUES (1)").1 = true
    ∧ (sql_is_valid_sql "UPDATE t SET a = 1").1 = true
    ∧ (sql_is_valid_sql "DELETE FROM t WHERE x = 1").1 = true :=
  ⟨(heuristic_command_checks "SELECT id FROM employees" "SELECT"
      (by decide) (by decide) (by decide)).1.mpr (by decide),
   (heuristic_command_checks "INSERT INTO t VALUES (1)" "INSERT"
      (by decide) (by decide) (by decide)).1.mpr (by decide),
   (heuristic_command_checks "UPDATE t SET a = 1" "UPDATE"
      (by decide) (by decide) (by decide)).1.mpr (by decide),
   (heuristic_command_checks "DELETE FROM t WHERE x = 1" "DELETE"
      (by decide) (by decide) (by decide)).1.mpr (by decide)⟩

theorem dmlAt_mem {cs : List Char} {k : String} (h : dmlAt cs = some k) :
    k ∈ dmlKeywords :=
  List.mem_of_find?_eq_some h

theorem tailDML_mem {cs : List Char} {k : String} (h : tailDML cs = some k) :
    k ∈ dmlKeywords := by
  unfold tailDML at h
  split at h
  · exact dmlAt_mem h
  · exact absurd h (by simp)

theorem matchGroupStar_mem : ∀ (fuel : Nat) (cs : List Char) (k : String),
    matchGroupStar fuel cs = some k → k ∈ dmlKeywords := by
  intro fuel
  induction fuel with
  | zero => intro cs k h; exact absurd h (by simp [matchGroupStar])
  | succ fuel ih =>
    intro cs k h
    rw [matchGroupStar] at h
    split at h
    next heq => injection h with h; subst h; exact tailDML_mem heq
    next =>
      obtain ⟨x, _, hx⟩ := List.exists_of_findSome?_eq_some h
      exact ih x k hx

theorem matchGroupPlus_mem : ∀ (fuel : Nat) (cs : List Char) (k : String),
    matchGroupPlus fuel cs = some k → k ∈ dmlKeywords := by
  intro fuel
  induction fuel with
  | zero => intro cs k h; exact absurd h (by simp [matchGroupPlus])
  | succ fuel ih =>
    intro cs k h
    rw [matchGroupPlus] at h
    split at h
    next heq => injection h with h; subst h; exact tailDML_mem heq
    next =>
      obtain ⟨x, _, hx⟩ := List.exists_of_findSome?_eq_some h
      exact ih x k hx

theorem matchMidStar_mem : ∀ (cs : List Char) (k : String),
    matchMidStar cs = some k → k ∈ dmlKeywords := by
  intro cs
  induction cs with
  | nil => intro k h; exact matchGroupStar_mem _ _ _ h
  | cons c rest ih =>
    intro k h
    rw [matchMidStar] at h
    split at h
    next heq => injection h with h; subst h; exact matchGroupStar_mem _ _ _ heq
    next => exact ih _ h

theorem matchMidPlus_mem : ∀ (cs : List Char) (k : String),
    matchMidPlus cs = some k → k ∈ dmlKeywords := by
  intro cs
  induction cs with
  | nil => intro k h; exact absurd h (by simp [matchMidPlus])
  | cons c rest ih =>
    intro k h
    rw [matchMidPlus] at h
    split at h
    next heq => injection h with h; subst h; exact matchGroupPlus_mem _ _ _ heq
    next => exact ih _ h

theorem tryLeadWs_mem {f : List Char → Option String}
    (hf : ∀ cs k, f cs = some k → k ∈ dmlKeywords) :
    ∀ (j : Nat) (cs0 : List Char) (k : String),
      tryLeadWs f j cs0 = some k → k ∈ dmlKeywords := by
  intro j
  induction j with
  | zero => intro cs0 k h; exact absurd h (by simp [tryLeadWs])
  | succ j ih =>
    intro cs0 k h
    rw [tryLeadWs] at h
    split at h
    next heq => injection h with h; subst h; exact hf _ _ heq
    next => exact ih _ _ h

theorem cteSearchStar_mem : ∀ (cs : List Char) (k : String),
    cteSearchStar cs = some k → k ∈ dmlKeywords := by
  intro cs
  induction cs with
  | nil => intro k h; exact absurd h (by simp [cteSearchStar])
  | cons c rest ih =>
    intro k h
    rw [cteSearchStar] at h
    split at h
    · split at h
      next heq =>
        injection h with h
        subst h
        exact tryLeadWs_mem matchMidStar_mem _ _ _ heq
      next => exact ih _ h
    · exact ih _ h

theorem cteSearchPlus_mem : ∀ (cs : List Char) (k : String),
    cteSearchPlus cs = some k → k ∈ dmlKeywords := by
  intro cs
  induction cs with
  | nil => intro k h; exact absurd h (by simp [cteSearchPlus])
  | cons c rest ih =>
    intro k h
    rw [cteSearchPlus] at h
    split at h
    · split at h
      next heq =>
        injection h with h
        subst h
        exact tryLeadWs_mem matchMidPlus_mem _ _ _ heq
      next => exact ih _ h
    · exact ih _ h

theorem identify_query_type_mem (t : String) :
    identify_query_type t ∈ closedStatementTypes := by
  unfold identify_query_type
  dsimp only
  split
  · decide
  · split
    next k heq =>
      have hk : k ∈ dmlKeywords := by
        split at heq
        · exact cteSearchStar_mem _ _ heq
        · exact absurd heq (by simp)
      exact (by decide : ∀ x ∈ dmlKeywords, x ∈ closedStatementTypes) k hk
    next =>
      split
      next k heq =>
        exact (by decide : ∀ x ∈ query_type_keys, x ∈ closedStatementTypes) k
          (List.mem_of_find?_eq_some heq)
      next =>
        split
        · decide
        · decide

theorem sql_get_query_type_mem (t : String) :
    sql_get_query_type t ∈ validator_closed_set := by
  unfold sql_get_query_type
  dsimp only
  split
  · decide
  · split
    · split
      next k heq =>
        exact (by decide : ∀ x ∈ dmlKeywords, x ∈ validator_closed_set) k
          (cteSearchPlus_mem _ _ heq)
      next => decide
    · split
      next k heq => exact List.mem_append_left _ (List.mem_of_find?_eq_some heq)
      next => decide

theorem sqlparse_get_query_type_mem (t : String) :
    sqlparse_get_query_type t ∈ sqlparse_closed_set := by
  unfold sqlparse_get_query_type
  dsimp only
  split
  next k heq => exact List.mem_append_left _ (List.mem_of_find?_eq_some heq)
  next => decide

/-- C5 counterexample: `SQLValidator.get_query_type "EXECUTE sp_x"` is
`"EXECUTE"`, which is outside the closed statement-type set named by the
spec. -/
theorem execute_outside_closed_set :
    sql_get_query_type "EXECUTE sp_x" = "EXECUTE"
    ∧ "EXECUTE" ∉ closedStatementTypes := by
  exact ⟨by decide, by decide⟩

/-- C5 amended: each type-detection operation returns a non-empty member
of a closed set — `SQLParser.identify_query_type` stays within the spec's
twelve-value set, while the two validators range over that set extended
with the further command keywords they recognize (`WITH`, `EXECUTE`, and
for the parser-backed validator also `BEGIN`, `COMMIT`, `ROLLBACK`, `SET`,
`EXEC`, `CALL`, `EXPLAIN`); keyword-free text yields UNKNOWN. -/
theorem statement_types_closed (t : String) :
    identify_query_type t ∈ closedStatementTypes
    ∧ sql_get_query_type t ∈ validator_closed_set
    ∧ sqlparse_get_query_type t ∈ sqlparse_closed_set
    ∧ identify_query_type t ≠ "" ∧ sql_get_query_type t ≠ ""
    ∧ sqlparse_get_query_type t ≠ ""
    ∧ identify_query_type "no keywords here" = "UNKNOWN"
    ∧ sql_get_query_type "no keywords here" = "UNKNOWN"
    ∧ sqlparse_get_query_type "no keywords here" = "UNKNOWN" := by
  refine ⟨identify_query_type_mem t, sql_get_query_type_mem t,
    sqlparse_get_query_type_mem t, ?_, ?_, ?_, by decide, by decide, by decide⟩
  · exact (by decide : ∀ x ∈ closedStatementTypes, x ≠ "") _ (identify_query_type_mem t)
  · exact (by decide : ∀ x ∈ validator_closed_set, x ≠ "") _ (sql_get_query_type_mem t)
  · exact (by decide : ∀ x ∈ sqlparse_closed_set, x ≠ "") _ (sqlparse_get_query_type_mem t)

/-- C4 counterexample: on a leading-`WITH` text whose CTE body contains a
whitespace-preceded `SELECT`, `SQLParser.identify_query_type` returns that
inner keyword (`SELECT`), while the balanced-parenthesis scan the spec
describes would skip the CTE body and return `UPDATE`. -/
theorem with_typing_ignores_parens :
    identify_query_type "WITH cte AS ( SELECT 1 FROM t) UPDATE x SET y = 2 WHERE z = 3"
      = "SELECT"
    ∧ firstDMLSkippingParens
        "WITH cte AS ( SELECT 1 FROM t) UPDATE x SET y = 2 WHERE z = 3"
      = some "UPDATE" := by
  exact ⟨by decide, by decide⟩

/-- C4 amended: the `WITH` typing scan has no parenthesis awareness — a
whitespace-delimited DML keyword inside a CTE body is matched, as on the
counterexample text — and every text with no leading command keyword and
no leading `WITH` header that contains `UNION [ALL] SELECT` is typed as
SELECT. -/
theorem with_and_union_typing (t : String)
    (h1 : t ≠ "")
    (h2 : matchLeadingWith t.data = false)
    (h3 : query_type_keys.find? (fun k => ciStarts k.data (dropWs t.data)) = none)
    (h4 : searchUnionSelect t.data = true) :
    identify_query_type t = "SELECT"
    ∧ identify_query_type "WITH cte AS ( SELECT 1 FROM t) UPDATE x SET y = 2 WHERE z = 3"
        = "SELECT" := by
  refine ⟨?_, by decide⟩
  simp [identify_query_type, h1, h2, h3, h4]

/-- C4 witness: a `UNION ALL SELECT` text with no leading command keyword
is typed SELECT. -/
theorem with_and_union_typing_witness :
    identify_query_type "x UNION ALL SELECT y" = "SELECT" :=
  (with_and_union_typing "x UNION ALL SELECT y"
    (by decide) (by decide) (by decide) (by decide)).1

end SqlAnalyzer

